import Mathlib

/-
Verification of the gemini_migration payload converters.

The repository converts conversational-AI API requests between the Claude,
OpenAI and Gemini wire formats.  The relevant code lives in
  claude_to_gemini_converter.py   (class ClaudeToGeminiConverter)
  converter_claude2openai.py      (class ClaudeToOpenAIConverter)
  converter_openai2gemini.py      (class OpenAIToGeminiConverter)
Each converter is a collection of pure functions over parsed JSON payloads.
This file gives a shallow embedding of those functions and proves properties
about them.  JSON values are modelled by a mutual inductive (`Json`,
`JsonArr`, `JsonObj`); the message payloads of each format are modelled by
typed structures mirroring exactly the dictionary keys the Python code
reads.  Numbers are modelled as integers (no claim touches floats).
-/

mutual
/-- JSON values (mutual with array and object spines so that structural
recursion and decidable equality are available). -/
inductive Json where
  | null : Json
  | bool (b : Bool) : Json
  | num (n : Int) : Json
  | str (s : String) : Json
  | arr (xs : JsonArr) : Json
  | obj (fields : JsonObj) : Json
  deriving DecidableEq

/-- Spine of a JSON array. -/
inductive JsonArr where
  | nil : JsonArr
  | cons (hd : Json) (tl : JsonArr) : JsonArr
  deriving DecidableEq

/-- Spine of a JSON object: an insertion-ordered key/value sequence, the
model of a Python dict (real dicts have unique keys). -/
inductive JsonObj where
  | nil : JsonObj
  | cons (key : String) (val : Json) (tl : JsonObj) : JsonObj
  deriving DecidableEq
end

/-- Build a JSON array spine from a list. -/
def jarr : List Json → JsonArr
  | [] => .nil
  | x :: xs => .cons x (jarr xs)

/-- Build a JSON object spine from a key/value list. -/
def jobj : List (String × Json) → JsonObj
  | [] => .nil
  | (k, v) :: xs => .cons k v (jobj xs)

/-- Python dict lookup `d.get(k)` (first matching key; Python dicts have
unique keys, so first match is the match). -/
def JsonObj.getKey : JsonObj → String → Option Json
  | .nil, _ => none
  | .cons k v rest, key => if k = key then some v else rest.getKey key

/-- Python dict item assignment `d[k] = f(d[k])` for a key already present:
the value at the key is rewritten in place, all other entries unchanged. -/
def JsonObj.updateKey : JsonObj → String → (Json → Json) → JsonObj
  | .nil, _, _ => .nil
  | .cons k v rest, key, f =>
      .cons k (if k = key then f v else v) (rest.updateKey key f)

/-- Python membership test `s in lst` on a list of JSON values: `==` against
each element; a string equals another value only if that value is the same
string. -/
def jsonMemStr (s : String) : JsonArr → Bool
  | .nil => false
  | .cons x rest =>
      (match x with | .str t => t = s | _ => false) || jsonMemStr s rest

/-- List comprehension `[b if x == a else x for x in lst]` over JSON values. -/
def replaceStr (a b : String) : JsonArr → JsonArr
  | .nil => .nil
  | .cons x rest =>
      .cons (match x with
             | .str t => if t = a then Json.str b else x
             | _ => x)
        (replaceStr a b rest)

/-- List comprehension `[x for x in lst if x != a]` over JSON values. -/
def removeStr (a : String) : JsonArr → JsonArr
  | .nil => .nil
  | .cons x rest =>
      match x with
      | .str t => if t = a then removeStr a rest else .cons x (removeStr a rest)
      | _ => .cons x (removeStr a rest)

mutual
/-- Python `repr()` of a parsed-JSON value (single-quoted strings, `None`,
`True`/`False`; escape corner cases are not needed by any claim). -/
def pyRepr : Json → String
  | .null => "None"
  | .bool b => if b then "True" else "False"
  | .num n => toString n
  | .str s => "'" ++ s ++ "'"
  | .arr xs => "[" ++ String.intercalate ", " (pyReprList xs) ++ "]"
  | .obj fs => "\x7b" ++ String.intercalate ", " (pyReprFields fs) ++ "\x7d"
termination_by structural j => j

/-- Renders each element of an array for `pyRepr`. -/
def pyReprList : JsonArr → List String
  | .nil => []
  | .cons x rest => pyRepr x :: pyReprList rest
termination_by structural xs => xs

/-- Renders each entry of an object for `pyRepr`. -/
def pyReprFields : JsonObj → List String
  | .nil => []
  | .cons k v rest => ("'" ++ k ++ "': " ++ pyRepr v) :: pyReprFields rest
termination_by structural fs => fs
end

/-- Python `str()` of a parsed-JSON value: the string itself for strings,
`repr`-style rendering otherwise (`str(1) = "1"`, `str(None) = "None"`). -/
def pyStr : Json → String
  | .str s => s
  | j => pyRepr j

/-- Hexadecimal digit for `\uXXXX` escapes. -/
def hexDigit (n : Nat) : Char :=
  if n < 10 then Char.ofNat (48 + n) else Char.ofNat (87 + n)

/-- Four-digit lowercase hexadecimal rendering of a code unit. -/
def hex4 (n : Nat) : String :=
  String.mk [hexDigit (n / 4096 % 16), hexDigit (n / 256 % 16),
             hexDigit (n / 16 % 16), hexDigit (n % 16)]

/-- Escapes one character the way `json.dumps` (default `ensure_ascii=True`)
renders it inside a string literal. -/
def jsonEscapeChar (c : Char) : String :=
  if c = '"' then "\\\""
  else if c = '\\' then "\\\\"
  else if c = '\n' then "\\n"
  else if c = '\t' then "\\t"
  else if c = '\r' then "\\r"
  else if c.toNat < 32 ∨ c.toNat > 126 then
    if c.toNat < 65536 then "\\u" ++ hex4 c.toNat
    else
      "\\u" ++ hex4 (55296 + (c.toNat - 65536) / 1024) ++
      "\\u" ++ hex4 (56320 + (c.toNat - 65536) % 1024)
  else String.mk [c]

/-- String literal rendering for `json.dumps`. -/
def jsonEscape (s : String) : String :=
  "\"" ++ String.join (s.toList.map jsonEscapeChar) ++ "\""

mutual
/-- Python `json.dumps` with default separators, used by
ClaudeToOpenAIConverter to serialize a tool call's `input` object into the
OpenAI `arguments` string (converter_claude2openai.py line 201). -/
def jsonDumps : Json → String
  | .null => "null"
  | .bool b => if b then "true" else "false"
  | .num n => toString n
  | .str s => jsonEscape s
  | .arr xs => "[" ++ String.intercalate ", " (jsonDumpsList xs) ++ "]"
  | .obj fs => "\x7b" ++ String.intercalate ", " (jsonDumpsFields fs) ++ "\x7d"
termination_by structural j => j

/-- Renders each element of an array for `jsonDumps`. -/
def jsonDumpsList : JsonArr → List String
  | .nil => []
  | .cons x rest => jsonDumps x :: jsonDumpsList rest
termination_by structural xs => xs

/-- Renders each entry of an object for `jsonDumps`. -/
def jsonDumpsFields : JsonObj → List String
  | .nil => []
  | .cons k v rest => (jsonEscape k ++ ": " ++ jsonDumps v) :: jsonDumpsFields rest
termination_by structural fs => fs
end

/-- Loop body shared by several converters: append the per-message output
of `f` for each message in turn (`for message in messages: out.extend(...)`). -/
def concatMap (f : α → List β) : List α → List β
  | [] => []
  | x :: xs => f x ++ concatMap f xs

/-- Python dict built by repeated assignment `d[k] = v` in scan order,
modelled as the pair list in recording order: `d.get(key)` returns the value
of the LAST pair recorded for `key` (later assignments shadow earlier ones). -/
def mapGet : List (String × String) → String → Option String
  | [], _ => none
  | (k, v) :: rest, key =>
      match mapGet rest key with
      | some r => some r
      | none => if k = key then some v else none

/- ===== Data model of Claude-format requests =====
Modelled from the dictionary keys the two Claude-source converters read.
Fields read via `.get(key, default)` where the code conflates an absent key
with the default are modelled as plain values; fields whose absence is
observable (different defaults at different call sites) use `Option`. -/

/-- Image `source` object of a Claude image block: `type`, `media_type`
(default `"image/jpeg"` where read), `data` (default `""`), `url`
(default `""`). -/
structure ImageSource where
  stype : String
  media_type : Option String
  data : String
  url : String
  deriving DecidableEq

/-- Content blocks of a Claude message (dicts tagged by `type`).  `other`
stands for a dict with any unrecognized tag: every converter skips it.
The `id` and `name` of a `tool_use` are `Option` because
claude_to_gemini_converter.py defaults the name to `"unknown"` while
converter_claude2openai.py defaults it to `""`.  The `content` of a
`tool_result` is modelled as a string (the shape every code path reads). -/
inductive ClaudeBlock where
  | text (t : String)
  | image (source : ImageSource)
  | tool_use (id : Option String) (name : Option String) (input : Json)
  | tool_result (tool_use_id : String) (content : String)
  | other
  deriving DecidableEq

/-- One element of a Claude list-shaped `content`: a bare string or a block
dict. -/
inductive CItem where
  | str (s : String)
  | block (b : ClaudeBlock)
  deriving DecidableEq

/-- A Claude message `content` value: a string or a list of items (the two
shapes real payloads use; both converters coerce any other value through
`str()`, a path no claim touches). -/
inductive CContent where
  | str (s : String)
  | list (items : List CItem)
  deriving DecidableEq

/-- A Claude message.  `name` is the message-level name read only by the
tool-role branch of claude_to_gemini_converter.py (default `"tool"`). -/
structure ClaudeMessage where
  role : String
  content : CContent
  name : Option String
  deriving DecidableEq

/-- A Claude tool declaration (`name`, `description`, `input_schema`). -/
structure ClaudeTool where
  name : String
  description : String
  input_schema : Json
  deriving DecidableEq

/-- A Claude request: the two top-level fields the converters extract. -/
structure ClaudeRequest where
  messages : List ClaudeMessage
  tools : List ClaudeTool
  deriving DecidableEq

/-- Dict form of a Claude block, used only to render Python `str()` of
list-shaped content (an approximation of the original dict; no claim
inspects this rendering). -/
def ClaudeBlock.toJson : ClaudeBlock → Json
  | .text t => .obj (jobj [("type", .str "text"), ("text", .str t)])
  | .image src =>
      .obj (jobj [("type", .str "image"),
        ("source", .obj (jobj ([("type", .str src.stype)] ++
          (match src.media_type with
           | some mt => [("media_type", Json.str mt)]
           | none => []) ++
          [("data", .str src.data), ("url", .str src.url)])))])
  | .tool_use id nm input =>
      .obj (jobj ([("type", Json.str "tool_use")] ++
        (match id with | some i => [("id", Json.str i)] | none => []) ++
        (match nm with | some n => [("name", Json.str n)] | none => []) ++
        [("input", input)]))
  | .tool_result id ct =>
      .obj (jobj [("type", .str "tool_result"), ("tool_use_id", .str id),
                  ("content", .str ct)])
  | .other => .obj .nil

/-- Dict form of a content item, for `str()` rendering. -/
def CItem.toJson : CItem → Json
  | .str s => .str s
  | .block b => b.toJson

/-- Python `str()` of a Claude `content` value. -/
def cstr : CContent → String
  | .str s => s
  | .list items => pyStr (.arr (jarr (items.map CItem.toJson)))

/- ===== Data model of OpenAI-format requests ===== -/

/-- One element of an OpenAI list-shaped `content`: a bare string, a dict
tagged `text` or `image_url`, or a dict with any other tag (skipped). -/
inductive OItem where
  | str (s : String)
  | text (t : String)
  | image_url (url : String)
  | other
  deriving DecidableEq

/-- An OpenAI message `content` value; `null` models JSON `null` (OpenAI
tool-call messages carry `content: null`, which the Python code stringifies
to `"None"` when it reaches the generic branch). -/
inductive OContent where
  | str (s : String)
  | list (items : List OItem)
  | null
  deriving DecidableEq

/-- One entry of an OpenAI `tool_calls` array: `id` (default `""`) and the
nested `function` object's `name` (default `""`) and parsed `arguments`.
The code parses a string-valued `arguments` with `json.loads` (empty object
on failure); that parsing path is outside the modelled fragment — the field
here holds the already-structured arguments value, which the code passes
through unchanged. -/
structure OToolCall where
  id : String
  name : String
  arguments : Json
  deriving DecidableEq

/-- An OpenAI message.  `tool_calls = []` models both an absent key and an
empty array (the code guards with `"tool_calls" in message and
message["tool_calls"]`, which treats the two alike);
`tool_call_id` and `name` are read with default `""`. -/
structure OAIMessage where
  role : String
  content : OContent
  tool_calls : List OToolCall
  tool_call_id : String
  name : String
  deriving DecidableEq

/-- An OpenAI tool declaration: `{"type": ..., "function": {"name": ...,
"description": ..., "parameters": ...}}`. -/
structure OAITool where
  ttype : String
  name : String
  description : String
  parameters : Json
  deriving DecidableEq

/-- An OpenAI request: the two top-level fields the converter extracts. -/
structure OpenAIRequest where
  messages : List OAIMessage
  tools : List OAITool
  deriving DecidableEq

/-- Dict form of an OpenAI content item, for `str()` rendering. -/
def OItem.toJson : OItem → Json
  | .str s => .str s
  | .text t => .obj (jobj [("type", .str "text"), ("text", .str t)])
  | .image_url url =>
      .obj (jobj [("type", .str "image_url"),
                  ("image_url", .obj (jobj [("url", .str url)]))])
  | .other => .obj .nil

/-- Python `str()` of an OpenAI `content` value (`str(None) = "None"`). -/
def ostr : OContent → String
  | .str s => s
  | .list items => pyStr (.arr (jarr (items.map OItem.toJson)))
  | .null => "None"

/- ===== Data model of Gemini-format requests (output) ===== -/

/-- One Gemini `parts` element: text, inline image data, a function call or
a function response (whose `response.result` is a string in every producing
path). -/
inductive GPart where
  | text (s : String)
  | inline_data (mime_type : String) (data : String)
  | functionCall (name : String) (args : Json)
  | functionResponse (name : String) (result : String)
  deriving DecidableEq

/-- One element of the Gemini `contents` array. -/
structure GContent where
  role : String
  parts : List GPart
  deriving DecidableEq

/-- The top-level Gemini `systemInstruction` object. -/
structure GSystemInstruction where
  parts : List GPart
  deriving DecidableEq

/-- One Gemini function declaration. -/
structure GFunctionDecl where
  name : String
  description : String
  parameters : Json
  deriving DecidableEq

/-- One element of the Gemini `tools` array (a dict holding
`functionDeclarations`). -/
structure GTool where
  functionDeclarations : List GFunctionDecl
  deriving DecidableEq

/-- A Gemini request.  `tools = []` and `systemInstruction = none` model the
keys being absent. -/
structure GeminiRequest where
  contents : List GContent
  systemInstruction : Option GSystemInstruction
  tools : List GTool
  deriving DecidableEq

/- ===== OpenAI-format output model (of ClaudeToOpenAIConverter) ===== -/

/-- One element of an OpenAI-format multi-modal content array produced by
the Claude-to-OpenAI converter. -/
inductive OutPart where
  | text (t : String)
  | image_url (url : String)
  deriving DecidableEq

/-- The `content` value of a produced OpenAI message: a string, a parts
array, or JSON `null`. -/
inductive OutContent where
  | str (s : String)
  | parts (ps : List OutPart)
  | null
  deriving DecidableEq

/-- One produced `tool_calls` entry; `ctype` holds the literal `"type"`
field (always `"function"`); `arguments` is the JSON-serialized string. -/
structure OutToolCall where
  id : String
  ctype : String
  name : String
  arguments : String
  deriving DecidableEq

/-- A produced OpenAI message: a plain role/content message, an assistant
tool-call message (role `"assistant"` hardcoded, with a `tool_calls` array),
or a tool-result message (role `"tool"` hardcoded). -/
inductive OutMessage where
  | plain (role : String) (content : OutContent)
  | toolCallMsg (content : OutContent) (tool_calls : List OutToolCall)
  | toolResultMsg (tool_call_id : String) (name : String) (content : String)
  deriving DecidableEq

/- ===== Schema Repair Pass (fix_request_issues) =====
The per-declaration patch logic appears identically in
claude_to_gemini_converter.py (lines 249-306) and converter_openai2gemini.py
(lines 237-294) over Gemini-shaped requests, and with OpenAI-shaped nesting
in converter_claude2openai.py (lines 259-308).  The guards below mirror the
Python checks `'required' in params and X in params['required']` for
dict-shaped `parameters` with a list-shaped `required` (the shape every
conversion produces); where CPython would raise or coerce on other shapes
(non-dict `parameters`, string `required`, ...), the model is a no-op and
the theorems restrict themselves to the faithful region. -/

/-- Replaces `a` by `b` inside `parameters['required']` when
`'required' in parameters and a in parameters['required']`. -/
def updateRequired (p : Json) (a b : String) : Json :=
  match p with
  | .obj fs =>
      match fs.getKey "required" with
      | some (.arr req) =>
          if jsonMemStr a req then
            .obj (fs.updateKey "required" (fun v =>
              match v with
              | .arr r => .arr (replaceStr a b r)
              | _ => v))
          else p
      | _ => p
  | _ => p

/-- Removes `a` from `parameters['required']` when present there. -/
def removeRequired (p : Json) (a : String) : Json :=
  match p with
  | .obj fs =>
      match fs.getKey "required" with
      | some (.arr req) =>
          if jsonMemStr a req then
            .obj (fs.updateKey "required" (fun v =>
              match v with
              | .arr r => .arr (removeStr a r)
              | _ => v))
          else p
      | _ => p
  | _ => p

/-- Normalizes `parameters['properties']['images']['type']` from a list
(`["array", "null"]`) to the single string `"array"`. -/
def patchImagesType (p : Json) : Json :=
  match p with
  | .obj fs =>
      match fs.getKey "properties" with
      | some (.obj ps) =>
          match ps.getKey "images" with
          | some (.obj ifs) =>
              match ifs.getKey "type" with
              | some (.arr _) =>
                  .obj (fs.updateKey "properties" (fun pv =>
                    match pv with
                    | .obj ps' => .obj (ps'.updateKey "images" (fun iv =>
                        match iv with
                        | .obj ifs' => .obj (ifs'.updateKey "type"
                            (fun _ => .str "array"))
                        | _ => iv))
                    | _ => pv))
              | _ => p
          | _ => p
      | _ => p
  | _ => p

/-- The per-declaration Schema Repair patch, keyed by declaration name. -/
def patchFunctionParams (name : String) (p : Json) : Json :=
  if name = "segment_anything" then updateRequired p "object" "object_english_name"
  else if name = "Pira_image2image" then removeRequired p "cfg"
  else if name = "gemini_edit" then patchImagesType (updateRequired p "image" "images")
  else if name = "outpaint" then updateRequired p "prompt" "english_prompt"
  else p

/-- Well-formedness of a declaration's `parameters` for the Schema Repair
Pass: where present, `required` is an array, `properties` is a dict, and a
`properties['images']` entry is a dict.  This carves out exactly the shapes
on which CPython runs the patches without raising or string/dict-coercing. -/
def wfParams : Json → Bool
  | .obj fs =>
      (match fs.getKey "required" with
       | some (.arr _) => true
       | some _ => false
       | none => true) &&
      (match fs.getKey "properties" with
       | some (.obj ps) =>
           (match ps.getKey "images" with
            | some (.obj _) => true
            | some _ => false
            | none => true)
       | some _ => false
       | none => true)
  | _ => true

/-- Schema Repair Pass over a Gemini-shaped request
(`fix_request_issues` of ClaudeToGeminiConverter and of
OpenAIToGeminiConverter, which are textually identical): drop `contents`
entries with empty `parts`, then patch each named function declaration. -/
def fix_request_issues (r : GeminiRequest) : GeminiRequest :=
  ⟨r.contents.filter (fun c => !c.parts.isEmpty),
   r.systemInstruction,
   r.tools.map (fun t =>
     ⟨t.functionDeclarations.map (fun f =>
       ⟨f.name, f.description, patchFunctionParams f.name f.parameters⟩)⟩)⟩

/- ===== convert_enum_values (OpenAIToGeminiConverter, lines 177-207) ===== -/

/-- Stringifies each enum value: `[str(val) for val in enum]`. -/
def stringifyEnum : JsonArr → JsonArr
  | .nil => .nil
  | .cons x rest => .cons (.str (pyStr x)) (stringifyEnum rest)

mutual
/-- Recursively converts enum values to strings in a parameter schema
(`convert_enum_values`): non-dict schemas are returned unchanged; in a dict,
a list-valued `enum` entry is stringified, each value under `properties` (a
dict) is processed recursively, an `items` entry is processed recursively,
and a dict-valued `additionalProperties` entry is processed recursively.
Python rewrites the keys one after another on a deep copy; with the unique
keys of a real dict that equals this single pass over the entries. -/
def convert_enum_values : Json → Json
  | .obj fs => .obj (cevFields fs)
  | j => j
termination_by structural j => j

/-- Entry-wise traversal for `convert_enum_values`. -/
def cevFields : JsonObj → JsonObj
  | .nil => .nil
  | .cons k v rest =>
      .cons k
        (if k = "enum" then
          match v with
          | .arr xs => .arr (stringifyEnum xs)
          | _ => v
         else if k = "properties" then
          match v with
          | .obj ps => .obj (cevProps ps)
          | _ => v
         else if k = "items" then convert_enum_values v
         else if k = "additionalProperties" then
          match v with
          | .obj _ => convert_enum_values v
          | _ => v
         else v)
        (cevFields rest)
termination_by structural fs => fs

/-- Recurses into each property schema for `convert_enum_values`. -/
def cevProps : JsonObj → JsonObj
  | .nil => .nil
  | .cons k v rest => .cons k (convert_enum_values v) (cevProps rest)
termination_by structural ps => ps
end

/- ===== ClaudeToGeminiConverter (claude_to_gemini_converter.py) ===== -/

namespace ClaudeToGemini

/-- Literal of the legacy tool-result convention, the fixed part of the
regex `Observation of Tool ...` (claude_to_gemini_converter.py line 203). -/
def obsLit : List Char := "Observation of Tool `".toList

/-- One attempted match of the regex at the start of `cs`: the literal, then
a nonempty run of non-backtick characters (the greedy `[^`]+` group), then a
closing backtick. -/
def matchAt (cs : List Char) : Option String :=
  if obsLit.isPrefixOf cs then
    let rest := cs.drop obsLit.length
    let nm := rest.takeWhile (fun c => c ≠ '`')
    if nm ≠ [] ∧ (rest.drop nm.length).head? = some '`' then
      some (String.mk nm)
    else none
  else none

/-- Leftmost search of the pattern (`re.search` semantics: try each start
position left to right). -/
def searchObs : List Char → Option String
  | [] => none
  | c :: rest =>
      match matchAt (c :: rest) with
      | some r => some r
      | none => searchObs rest

/-- Extracts the function name embedded in a tool-result content string via
the literal-backtick convention; `none` when the pattern is absent. -/
def extract_tool_name (content : String) : Option String :=
  searchObs content.toList

/-- Per-item conversion of a list-shaped content (lines 172-213): bare
strings and `text` blocks become text parts, `image` blocks become
`inline_data` (media type defaulting to `"image/jpeg"`), `tool_use` becomes
`functionCall` (name defaulting to `"unknown"`), `tool_result` becomes
`functionResponse` with the name recovered from the content (default
`"unknown"`); unrecognized blocks are skipped. -/
def convertItem : CItem → Option GPart
  | .str s => some (.text s)
  | .block (.text t) => some (.text t)
  | .block (.image src) =>
      some (.inline_data (src.media_type.getD "image/jpeg") src.data)
  | .block (.tool_use _ nm input) =>
      some (.functionCall (nm.getD "unknown") input)
  | .block (.tool_result _ ct) =>
      some (.functionResponse ((extract_tool_name ct).getD "unknown") ct)
  | .block .other => none

/-- Parts of a message's content: a string becomes one text part, a list is
converted item by item. -/
def partsOf : CContent → List GPart
  | .str s => [.text s]
  | .list items => items.filterMap convertItem

/-- Role mapping of the fallthrough path (lines 144-147 and 163-164):
user stays user, assistant becomes model, anything else defaults to user. -/
def geminiRole (role : String) : String :=
  if role = "user" then "user"
  else if role = "assistant" then "model"
  else "user"

/-- Loop body of `convert_messages` (lines 139-220): a tool-role message
becomes a model-role text part `Tool Response (name):\n...`; a system-role
message is skipped (handled in `convert_request`); everything else maps its
role and converts its content, and is appended even with empty parts. -/
def convertOne (m : ClaudeMessage) : List GContent :=
  if m.role = "tool" then
    [⟨"model", [.text ("Tool Response (" ++ m.name.getD "tool" ++ "):\n" ++
                       cstr m.content)]⟩]
  else if m.role = "system" then []
  else [⟨geminiRole m.role, partsOf m.content⟩]

/-- Converts Claude messages to Gemini contents (`convert_messages`). -/
def convert_messages (msgs : List ClaudeMessage) : List GContent :=
  concatMap convertOne msgs

/-- Converts Claude tools to Gemini function declarations (`convert_tools`,
lines 224-247): the `input_schema` is passed through unchanged as
`parameters`. -/
def convert_tools (tools : List ClaudeTool) : List GFunctionDecl :=
  tools.map (fun t => ⟨t.name, t.description, t.input_schema⟩)

/-- Converts a complete request (`convert_request`, lines 308-352): system
messages are split off and newline-joined into a single `systemInstruction`
(Python's `"\n".join` raises on non-string content; the model renders via
`cstr`, and the theorems restrict to string content), non-system messages
are converted, tools are wrapped once, and `fix_request_issues` runs last. -/
def convert_request (r : ClaudeRequest) : GeminiRequest :=
  let sys := r.messages.filter (fun m => m.role = "system")
  let nonSys := r.messages.filter (fun m => m.role ≠ "system")
  let contents := convert_messages nonSys
  let sysInstr : Option GSystemInstruction :=
    if sys.isEmpty then none
    else some ⟨[.text (String.intercalate "\n" (sys.map (fun m => cstr m.content)))]⟩
  let tools :=
    if r.tools.isEmpty then []
    else
      let gf := convert_tools r.tools
      if gf.isEmpty then [] else [(⟨gf⟩ : GTool)]
  fix_request_issues ⟨contents, sysInstr, tools⟩

end ClaudeToGemini

/- ===== ClaudeToOpenAIConverter (converter_claude2openai.py) ===== -/

namespace ClaudeToOpenAI

/-- Recognizes a `tool_use` block and returns its `id`, `name` and `input`
(the type filter of lines 117 and 184). -/
def asToolUse : CItem → Option (Option String × Option String × Json)
  | .block (.tool_use id nm input) => some (id, nm, input)
  | _ => none

/-- Recognizes a `tool_result` block and returns its `tool_use_id` and
`content` (the type filter of line 208). -/
def asToolResult : CItem → Option (String × String)
  | .block (.tool_result id ct) => some (id, ct)
  | _ => none

/-- Pairs `(id, name)` recorded from one message for the correlation map
(lines 114-121): only assistant messages with list content are scanned, and
a pair is recorded only when both `id` and `name` are truthy. -/
def toolUsePairs (m : ClaudeMessage) : List (String × String) :=
  if m.role = "assistant" then
    match m.content with
    | .list items =>
        items.filterMap (fun it =>
          match asToolUse it with
          | some (id, nm, _) =>
              let i := id.getD ""
              let n := nm.getD ""
              if i ≠ "" ∧ n ≠ "" then some (i, n) else none
          | none => none)
    | _ => []
  else []

/-- The correlation map `tool_use_map`, built by one scan over all messages
before any message is converted (lines 112-121). -/
def tool_use_map (msgs : List ClaudeMessage) : List (String × String) :=
  concatMap toolUsePairs msgs

/-- Space-joined text of the `text` blocks of a content list (lines
187-190). -/
def textContent (items : List CItem) : String :=
  String.intercalate " " (items.filterMap (fun it =>
    match it with
    | .block (.text t) => some t
    | _ => none))

/-- Multi-modal content conversion (lines 135-172): strings and `text`
blocks become text parts; a base64-sourced image becomes a data-URL
`image_url`, a url-sourced image becomes a plain `image_url`; `tool_use`,
`tool_result`, images with any other source type, and unrecognized blocks
contribute nothing. -/
def convertItems (items : List CItem) : List OutPart :=
  items.filterMap (fun it =>
    match it with
    | .str s => some (.text s)
    | .block (.text t) => some (.text t)
    | .block (.image src) =>
        if src.stype = "base64" then
          some (.image_url ("data:" ++ src.media_type.getD "image/jpeg" ++
                            ";base64," ++ src.data))
        else if src.stype = "url" then some (.image_url src.url)
        else none
    | .block (.tool_use _ _ _) => none
    | .block (.tool_result _ _) => none
    | .block .other => none)

/-- The `openai_content` computed for a list-shaped content (lines 174-177):
the converted parts, or `str(content)` when no part survived. -/
def plainContent (items : List CItem) : OutContent :=
  let ps := convertItems items
  if ps.isEmpty then .str (cstr (.list items)) else .parts ps

/-- Loop body of `convert_messages` (lines 123-227).  An assistant message
with `tool_use` blocks expands into one tool-call message per block (each
with a singleton `tool_calls` array, the shared text content, or `null`
content when that text is empty); a message with `tool_result` blocks
expands into one tool message per block, the name resolved through the
correlation map with fallback `"unknown"`; anything else becomes one plain
message with the same role. -/
def convertOne (map : List (String × String)) (m : ClaudeMessage) :
    List OutMessage :=
  match m.content with
  | .str s => [.plain m.role (.str s)]
  | .list items =>
      let tus := items.filterMap asToolUse
      if ¬tus.isEmpty ∧ m.role = "assistant" then
        let tc := textContent items
        tus.map (fun u =>
          .toolCallMsg (if tc ≠ "" then .str tc else .null)
            [⟨u.1.getD "", "function", u.2.1.getD "", jsonDumps u.2.2⟩])
      else
        let trs := items.filterMap asToolResult
        if ¬trs.isEmpty then
          trs.map (fun p =>
            .toolResultMsg p.1 ((mapGet map p.1).getD "unknown") p.2)
        else [.plain m.role (plainContent items)]

/-- Converts Claude messages to OpenAI messages (`convert_messages`). -/
def convert_messages (msgs : List ClaudeMessage) : List OutMessage :=
  concatMap (convertOne (tool_use_map msgs)) msgs

/-- Converts Claude tools to OpenAI tool declarations (`convert_tools`,
lines 231-257): the `input_schema` is passed through unchanged as the
nested `function.parameters`. -/
def convert_tools (tools : List ClaudeTool) : List OAITool :=
  tools.map (fun t => ⟨"function", t.name, t.description, t.input_schema⟩)

end ClaudeToOpenAI

/-- An OpenAI-format request as produced by ClaudeToOpenAIConverter. -/
structure OutOpenAIRequest where
  messages : List OutMessage
  tools : List OAITool
  deriving DecidableEq

namespace ClaudeToOpenAI

/-- Schema Repair Pass over the OpenAI-shaped request (lines 259-308): the
same per-name patches applied under `tool['function']`. -/
def fix_request_issues (r : OutOpenAIRequest) : OutOpenAIRequest :=
  ⟨r.messages,
   r.tools.map (fun t =>
     ⟨t.ttype, t.name, t.description, patchFunctionParams t.name t.parameters⟩)⟩

/-- Converts a complete request (`convert_request`, lines 310-341). -/
def convert_request (r : ClaudeRequest) : OutOpenAIRequest :=
  let msgs := convert_messages r.messages
  let tools :=
    if r.tools.isEmpty then []
    else
      let ot := convert_tools r.tools
      if ot.isEmpty then [] else ot
  fix_request_issues ⟨msgs, tools⟩

end ClaudeToOpenAI

/- ===== OpenAIToGeminiConverter (converter_openai2gemini.py) ===== -/

namespace OpenAIToGemini

/-- Pairs `(id, name)` recorded from one message's `tool_calls` for the
correlation map (lines 49-58): recorded only when both are truthy; every
message is scanned regardless of role. -/
def toolCallPairs (m : OAIMessage) : List (String × String) :=
  m.tool_calls.filterMap (fun tc =>
    if tc.id ≠ "" ∧ tc.name ≠ "" then some (tc.id, tc.name) else none)

/-- The correlation map `tool_call_id_to_name`, built by one scan over all
messages before any message is converted (lines 49-58). -/
def tool_call_id_to_name (msgs : List OAIMessage) : List (String × String) :=
  concatMap toolCallPairs msgs

/-- Anchored match of `re.match(r'data:([^;]+);base64,(.+)', url)`: the
literal `data:`, a nonempty run of non-semicolon characters (the greedy
first group), the literal `;base64,`, then at least one non-newline
character (the greedy second group stops at a newline since `.` does not
match `\n`). -/
def dataUrlMatch (url : String) : Option (String × String) :=
  let cs := url.toList
  if "data:".toList.isPrefixOf cs then
    let rest := cs.drop 5
    let mime := rest.takeWhile (fun c => c ≠ ';')
    if mime ≠ [] ∧ ";base64,".toList.isPrefixOf (rest.drop mime.length) then
      let d := (rest.drop (mime.length + 8)).takeWhile (fun c => c ≠ '\n')
      if d ≠ [] then some (String.mk mime, String.mk d) else none
    else none
  else none

/-- Per-item conversion of a list-shaped content (lines 139-165): `text`
items and bare strings become text parts; an `image_url` whose url is a
well-formed `data:` url becomes `inline_data`, a malformed `data:` url
contributes nothing, and any other url degrades to the text part
`[Image: url]`; unrecognized items are skipped. -/
def convertItemO : OItem → Option GPart
  | .str s => some (.text s)
  | .text t => some (.text t)
  | .image_url url =>
      if url.startsWith "data:" then
        match dataUrlMatch url with
        | some (mime, d) => some (.inline_data mime d)
        | none => none
      else some (.text ("[Image: " ++ url ++ "]"))
  | .other => none

/-- Parts of a message's content (lines 133-167): a string becomes one text
part, a list is converted item by item, and `null` is stringified to the
text part `None`. -/
def opartsOf : OContent → List GPart
  | .str s => [.text s]
  | .list items => items.filterMap convertItemO
  | .null => [.text (ostr .null)]

/-- Role mapping (lines 72-81): user stays user, assistant becomes model,
tool becomes user (its parts carry the functionResponse), anything else
defaults to user. -/
def geminiRole (role : String) : String :=
  if role = "user" then "user"
  else if role = "assistant" then "model"
  else if role = "tool" then "user"
  else "user"

/-- Loop body of `convert_messages` (lines 60-173) for the `contents` list.
A system message contributes nothing here (it assigns the system
instruction instead); a message with `tool_calls` becomes one content
carrying a `functionCall` part per call; a tool-role message becomes a
`functionResponse` whose name is the message's own `name` if truthy, else
the correlation-map entry for its truthy `tool_call_id` with fallback `""`,
else `""`; anything else converts its content and is appended only when the
parts are nonempty. -/
def convertOne (map : List (String × String)) (m : OAIMessage) :
    List GContent :=
  if m.role = "system" then []
  else
    let gr := geminiRole m.role
    if ¬m.tool_calls.isEmpty then
      [⟨gr, m.tool_calls.map (fun tc => .functionCall tc.name tc.arguments)⟩]
    else if m.role = "tool" then
      let nm :=
        if m.name ≠ "" then m.name
        else if m.tool_call_id ≠ "" then (mapGet map m.tool_call_id).getD ""
        else ""
      [⟨gr, [.functionResponse nm (ostr m.content)]⟩]
    else
      let parts := opartsOf m.content
      if parts.isEmpty then [] else [⟨gr, parts⟩]

/-- The system instruction as assigned by the loop (lines 64-70): each
system message with string content overwrites it, so the last such message
wins; list-shaped or null content leaves the previous value in place. -/
def system_instruction (msgs : List OAIMessage) : Option GSystemInstruction :=
  msgs.foldl (fun acc m =>
    if m.role = "system" then
      match m.content with
      | .str s => some ⟨[.text s]⟩
      | _ => acc
    else acc) none

/-- Converts OpenAI messages to the pair of Gemini contents and optional
system instruction (`convert_messages`). -/
def convert_messages (msgs : List OAIMessage) :
    List GContent × Option GSystemInstruction :=
  (concatMap (convertOne (tool_call_id_to_name msgs)) msgs,
   system_instruction msgs)

/-- Converts OpenAI tools to Gemini tools (`convert_tools`, lines 209-235):
only `type == "function"` entries are kept, their parameter schema is passed
through `convert_enum_values`, and a nonempty declaration list is wrapped in
a single `functionDeclarations` object. -/
def convert_tools (tools : List OAITool) : List GTool :=
  let decls := tools.filterMap (fun t =>
    if t.ttype = "function" then
      some (⟨t.name, t.description, convert_enum_values t.parameters⟩ :
        GFunctionDecl)
    else none)
  if decls.isEmpty then [] else [⟨decls⟩]

/-- Converts a complete request (`convert_request`, lines 296-331). -/
def convert_request (r : OpenAIRequest) : GeminiRequest :=
  let p := convert_messages r.messages
  let tools := if r.tools.isEmpty then [] else convert_tools r.tools
  fix_request_issues ⟨p.1, p.2, tools⟩

end OpenAIToGemini

/- ===== Observer definitions used by the claim statements ===== -/

/-- A Claude user message carrying one tool-result block with identifier `c`
and content `t` (and no name of its own — Claude results never carry one). -/
def cResMsg (c t : String) : ClaudeMessage :=
  ⟨"user", .list [.block (.tool_result c t)], none⟩

/-- An OpenAI tool-role message with `tool_call_id = c`, content `t` and no
`name` of its own. -/
def oToolMsg (c t : String) : OAIMessage :=
  ⟨"tool", .str t, [], c, ""⟩

/-- A Claude assistant message carrying exactly one tool-use block. -/
def cCallMsg (c n : String) (a : Json) : ClaudeMessage :=
  ⟨"assistant", .list [.block (.tool_use (some c) (some n) a)], none⟩

/-- An OpenAI assistant message carrying exactly one `tool_calls` entry. -/
def oCallMsg (c n : String) (a : Json) : OAIMessage :=
  ⟨"assistant", .null, [⟨c, n, a⟩], "", ""⟩

/-- The text of the last system-role message with string content, the value
the OpenAI-to-Gemini loop leaves in `system_instruction` (each qualifying
message overwrites the previous one). -/
def lastSystemText : List OAIMessage → Option String
  | [] => none
  | m :: rest =>
      match lastSystemText rest with
      | some s => some s
      | none =>
          if m.role = "system" then
            match m.content with
            | .str s => some s
            | _ => none
          else none

/-- Inline image parts `(mime_type, data)` of a Gemini contents list, in
order. -/
def gInlineImages (cs : List GContent) : List (String × String) :=
  concatMap (fun c => c.parts.filterMap (fun p =>
    match p with
    | .inline_data m d => some (m, d)
    | _ => none)) cs

/-- Image urls of a produced OpenAI message list, in order. -/
def outImageUrls (ms : List OutMessage) : List String :=
  concatMap (fun m =>
    match m with
    | .plain _ (.parts ps) =>
        ps.filterMap (fun p =>
          match p with
          | .image_url u => some u
          | _ => none)
    | _ => []) ms

/-- The `(mime_type, data)` pairs the Claude-to-Gemini converter owes to the
image blocks of a content list. -/
def claudeInlineImages (items : List CItem) : List (String × String) :=
  items.filterMap (fun it =>
    match it with
    | .block (.image src) => some (src.media_type.getD "image/jpeg", src.data)
    | _ => none)

/-- The image urls the Claude-to-OpenAI converter owes to the base64- and
url-sourced image blocks of a content list. -/
def claudeImageUrls (items : List CItem) : List String :=
  items.filterMap (fun it =>
    match it with
    | .block (.image src) =>
        if src.stype = "base64" then
          some ("data:" ++ src.media_type.getD "image/jpeg" ++ ";base64," ++
                src.data)
        else if src.stype = "url" then some src.url
        else none
    | _ => none)

/-- Tests whether a content item is an image block. -/
def isImageItem : CItem → Bool
  | .block (.image _) => true
  | _ => false

/-- Tests whether a content item is a tool-use block. -/
def isToolUseItem : CItem → Bool
  | .block (.tool_use _ _ _) => true
  | _ => false

/-- Tests whether a content item is a tool-result block. -/
def isToolResultItem : CItem → Bool
  | .block (.tool_result _ _) => true
  | _ => false

/-- The `(id, name)` pairs of the tool-call turns of a produced OpenAI
message list, in order. -/
def outToolCallPairs (ms : List OutMessage) : List (String × String) :=
  concatMap (fun m =>
    match m with
    | .toolCallMsg _ tcs => tcs.map (fun tc => (tc.id, tc.name))
    | _ => []) ms

/-- The `(id, name)` pairs (defaults applied) of the tool-use blocks of the
assistant list-content messages of a Claude conversation, in order. -/
def claudeCallPairs (msgs : List ClaudeMessage) : List (String × String) :=
  concatMap (fun m =>
    if m.role = "assistant" then
      match m.content with
      | .list items =>
          (items.filterMap ClaudeToOpenAI.asToolUse).map
            (fun u => (u.1.getD "", u.2.1.getD ""))
      | _ => []
    else []) msgs

/-- Tests that a string contains no backtick character. -/
def backtickFree (s : String) : Bool :=
  s.toList.all (fun c => c ≠ '`')

/-- Well-formedness of a whole Gemini request for the Schema Repair Pass:
every declaration's parameters are shaped so that CPython runs the patches
without raising or coercing (see `wfParams`). -/
def wfRequest (r : GeminiRequest) : Bool :=
  r.tools.all (fun t =>
    t.functionDeclarations.all (fun f => wfParams f.parameters))

mutual
/-- Tests that a JSON value contains no `enum` key anywhere (a sufficient
condition for `convert_enum_values` to be the identity). -/
def noEnum : Json → Bool
  | .obj fs => noEnumFields fs
  | .arr xs => noEnumArr xs
  | _ => true
termination_by structural j => j

/-- Array traversal for `noEnum`. -/
def noEnumArr : JsonArr → Bool
  | .nil => true
  | .cons x rest => noEnum x && noEnumArr rest
termination_by structural xs => xs

/-- Object traversal for `noEnum`. -/
def noEnumFields : JsonObj → Bool
  | .nil => true
  | .cons k v rest => (k ≠ "enum") && noEnum v && noEnumFields rest
termination_by structural fs => fs
end

/-- Observer: the `required` entry of a dict-shaped parameters value. -/
def requiredOf : Json → Option Json
  | .obj fs => fs.getKey "required"
  | _ => none

/- ===== Helper lemmas ===== -/

theorem concatMap_nil (f : α → List β) : concatMap f [] = [] := rfl

theorem concatMap_cons (f : α → List β) (x : α) (xs : List α) :
    concatMap f (x :: xs) = f x ++ concatMap f xs := rfl

theorem concatMap_append (f : α → List β) (xs ys : List α) :
    concatMap f (xs ++ ys) = concatMap f xs ++ concatMap f ys := by
  induction xs with
  | nil => rfl
  | cons x xs ih => simp [concatMap_cons, ih, List.append_assoc]

theorem mem_concatMap {f : α → List β} {b : β} {xs : List α} :
    b ∈ concatMap f xs ↔ ∃ a ∈ xs, b ∈ f a := by
  induction xs with
  | nil => simp [concatMap_nil]
  | cons x xs ih => simp [concatMap_cons, ih]

theorem cstr_str (s : String) : cstr (.str s) = s := rfl

/- ===== C1 ===== -/

/-- Claim C1 counterexample: the OpenAI-to-Gemini converter emits the EMPTY
string, not the literal `"unknown"`, for a tool message whose call
identifier has no mapping. -/
theorem c1_counterexample :
    (OpenAIToGemini.convert_messages [⟨"tool", .str "r", [], "c9", ""⟩]).1 =
      [⟨"user", [.functionResponse "" "r"]⟩] ∧ ("" : String) ≠ "unknown" :=
  ⟨by decide, by decide⟩

/-- Claim C1 (amended): when a function result's call identifier has no
mapping, the Claude-to-OpenAI converter emits the literal name `"unknown"`,
while the OpenAI-to-Gemini converter emits the empty string; neither
conversion raises (both are total functions). -/
theorem c1_amended :
    (∀ (msgs : List ClaudeMessage) (c t : String),
      mapGet (ClaudeToOpenAI.tool_use_map (msgs ++ [cResMsg c t])) c = none →
      (ClaudeToOpenAI.convert_messages (msgs ++ [cResMsg c t])).getLast? =
        some (.toolResultMsg c "unknown" t)) ∧
    (∀ (omsgs : List OAIMessage) (c t : String),
      mapGet (OpenAIToGemini.tool_call_id_to_name (omsgs ++ [oToolMsg c t])) c
          = none →
      (OpenAIToGemini.convert_messages (omsgs ++ [oToolMsg c t])).1.getLast? =
        some ⟨"user", [.functionResponse "" t]⟩) := by
  constructor
  · intro msgs c t h
    unfold ClaudeToOpenAI.convert_messages
    rw [concatMap_append]
    have hone :
        ClaudeToOpenAI.convertOne
            (ClaudeToOpenAI.tool_use_map (msgs ++ [cResMsg c t]))
            (cResMsg c t) =
          [.toolResultMsg c "unknown" t] := by
      simp only [cResMsg] at h
      simp [ClaudeToOpenAI.convertOne, cResMsg, ClaudeToOpenAI.asToolUse,
            ClaudeToOpenAI.asToolResult, h]
    rw [concatMap_cons, concatMap_nil, List.append_nil, hone]
    exact List.getLast?_concat _
  · intro omsgs c t h
    unfold OpenAIToGemini.convert_messages
    simp only
    rw [concatMap_append]
    have hone :
        OpenAIToGemini.convertOne
            (OpenAIToGemini.tool_call_id_to_name (omsgs ++ [oToolMsg c t]))
            (oToolMsg c t) =
          [⟨"user", [.functionResponse "" t]⟩] := by
      by_cases hc : c = ""
      · simp [OpenAIToGemini.convertOne, oToolMsg, OpenAIToGemini.geminiRole,
              hc, ostr]
      · simp only [oToolMsg] at h
        simp [OpenAIToGemini.convertOne, oToolMsg, OpenAIToGemini.geminiRole,
              hc, h, ostr]
    rw [concatMap_cons, concatMap_nil, List.append_nil, hone]
    exact List.getLast?_concat _

/-- Witness for C1 at concrete inputs. -/
theorem c1_witness :
    (ClaudeToOpenAI.convert_messages ([] ++ [cResMsg "cx" "r"])).getLast? =
        some (.toolResultMsg "cx" "unknown" "r") ∧
    (OpenAIToGemini.convert_messages ([] ++ [oToolMsg "c9" "r"])).1.getLast? =
        some ⟨"user", [.functionResponse "" "r"]⟩ :=
  ⟨c1_amended.1 [] "cx" "r" (by decide), c1_amended.2 [] "c9" "r" (by decide)⟩

/- ===== C2 ===== -/

theorem o2g_system_instruction_eq (msgs : List OAIMessage) :
    OpenAIToGemini.system_instruction msgs =
      (match lastSystemText msgs with
       | some s => some (⟨[.text s]⟩ : GSystemInstruction)
       | none => none) := by
  unfold OpenAIToGemini.system_instruction
  suffices hgen : ∀ acc : Option GSystemInstruction,
      msgs.foldl (fun acc m =>
        if m.role = "system" then
          match m.content with
          | .str s => some ⟨[.text s]⟩
          | _ => acc
        else acc) acc =
      (match lastSystemText msgs with
       | some s => some (⟨[.text s]⟩ : GSystemInstruction)
       | none => acc) by
    exact hgen none
  induction msgs with
  | nil => intro acc; rfl
  | cons m rest ih =>
      intro acc
      rw [List.foldl_cons, ih]
      cases hrest : lastSystemText rest with
      | some s => simp [lastSystemText, hrest]
      | none =>
          by_cases hr : m.role = "system"
          · cases hc : m.content <;> simp [lastSystemText, hrest, hr, hc]
          · simp [lastSystemText, hrest, hr]

/-- Claim C2 counterexample: two system turns `"A"` then `"B"` yield the
single instruction `"B"` (the OpenAI-to-Gemini loop overwrites the
instruction per system turn), not the concatenation `"A\nB"`. -/
theorem c2_counterexample :
    (OpenAIToGemini.convert_request
      ⟨[⟨"system", .str "A", [], "", ""⟩, ⟨"system", .str "B", [], "", ""⟩,
        ⟨"user", .str "hi", [], "", ""⟩], []⟩).systemInstruction =
      some ⟨[.text "B"]⟩ ∧ ("B" : String) ≠ "A\nB" :=
  ⟨by decide, by decide⟩

/-- Claim C2 (amended): the Claude-to-Gemini converter emits one
system-instruction whose text newline-joins all system turns' (string)
contents in input order; the OpenAI-to-Gemini converter emits one
system-instruction holding only the text of the LAST system turn with
string content. -/
theorem c2_amended :
    (∀ (r : ClaudeRequest) (ss : List String),
      (r.messages.filter (fun m => m.role = "system")).map
          ClaudeMessage.content = ss.map CContent.str →
      ss ≠ [] →
      (ClaudeToGemini.convert_request r).systemInstruction =
        some ⟨[.text (String.intercalate "\n" ss)]⟩) ∧
    (∀ (msgs : List OAIMessage) (tools : List OAITool) (s : String),
      lastSystemText msgs = some s →
      (OpenAIToGemini.convert_request ⟨msgs, tools⟩).systemInstruction =
        some ⟨[.text s]⟩) := by
  constructor
  · intro r ss h hne
    simp only [ClaudeToGemini.convert_request, fix_request_issues]
    have htext :
        (r.messages.filter (fun m => m.role = "system")).map
            (fun m => cstr m.content) = ss := by
      have : (r.messages.filter (fun m => m.role = "system")).map
          (fun m => cstr m.content) =
          ((r.messages.filter (fun m => m.role = "system")).map
            ClaudeMessage.content).map cstr := by
        rw [List.map_map]; rfl
      rw [this, h, List.map_map]
      simp [Function.comp_def, cstr_str]
    have hlen : ¬ ((r.messages.filter (fun m => m.role = "system")).isEmpty
        = true) := by
      intro hemp
      rw [List.isEmpty_iff] at hemp
      rw [hemp] at h
      exact hne (by simpa using h.symm)
    simp [hlen, htext]
  · intro msgs tools s h
    simp only [OpenAIToGemini.convert_request, OpenAIToGemini.convert_messages,
               fix_request_issues]
    rw [o2g_system_instruction_eq, h]

/-- Witness for C2 at concrete inputs. -/
theorem c2_witness :
    (ClaudeToGemini.convert_request
        ⟨[⟨"system", .str "A", none⟩, ⟨"system", .str "B", none⟩,
          ⟨"user", .str "hi", none⟩], []⟩).systemInstruction =
      some ⟨[.text (String.intercalate "\n" ["A", "B"])]⟩ ∧
    (OpenAIToGemini.convert_request
        ⟨[⟨"system", .str "S", [], "", ""⟩, ⟨"user", .str "q", [], "", ""⟩],
         []⟩).systemInstruction = some ⟨[.text "S"]⟩ :=
  ⟨c2_amended.1 _ ["A", "B"] (by decide) (by decide),
   c2_amended.2 _ [] "S" (by decide)⟩

/- ===== C3 ===== -/

/-- Claim C3 counterexample: an OpenAI tool-role turn converts to a
Gemini-style turn of role `"user"`, not `"model"`. -/
theorem c3_counterexample :
    (OpenAIToGemini.convert_messages [⟨"tool", .str "x", [], "c1", "n"⟩]).1.map
        GContent.role = ["user"] ∧ ("user" : String) ≠ "model" :=
  ⟨by decide, by decide⟩

/-- Claim C3 (amended): in the Claude-to-Gemini converter a tool-role turn
maps to role `"model"`, but in the OpenAI-to-Gemini converter a tool-role
turn maps to role `"user"` (its parts carrying the functionResponse). -/
theorem c3_amended :
    ∀ (cc : CContent) (mn : Option String) (oc : OContent)
      (tcs : List OToolCall) (cid nm : String),
      (ClaudeToGemini.convert_messages [⟨"tool", cc, mn⟩]).map GContent.role =
          ["model"] ∧
      (OpenAIToGemini.convert_messages [⟨"tool", oc, tcs, cid, nm⟩]).1.map
          GContent.role = ["user"] := by
  intro cc mn oc tcs cid nm
  constructor
  · simp [ClaudeToGemini.convert_messages, concatMap_cons, concatMap_nil,
          ClaudeToGemini.convertOne]
  · by_cases h : tcs.isEmpty <;>
      simp [OpenAIToGemini.convert_messages, concatMap_cons, concatMap_nil,
            OpenAIToGemini.convertOne, OpenAIToGemini.geminiRole, h]

/- ===== C4 ===== -/

theorem c2g_image_parts_aux (items : List CItem) :
    (items.filterMap ClaudeToGemini.convertItem).filterMap
      (fun p => match p with
        | GPart.inline_data m d => some (m, d)
        | _ => none) = claudeInlineImages items := by
  induction items with
  | nil => rfl
  | cons it rest ih =>
      cases it with
      | str s =>
          simpa [ClaudeToGemini.convertItem, claudeInlineImages,
                 List.filterMap_cons] using ih
      | block b =>
          cases b <;>
            simpa [ClaudeToGemini.convertItem, claudeInlineImages,
                   List.filterMap_cons] using ih

theorem c2o_image_urls_aux (items : List CItem)
    (h : ∀ src, CItem.block (.image src) ∈ items →
      src.stype = "base64" ∨ src.stype = "url") :
    (ClaudeToOpenAI.convertItems items).filterMap
      (fun p => match p with
        | OutPart.image_url u => some u
        | _ => none) = claudeImageUrls items := by
  induction items with
  | nil => rfl
  | cons it rest ih =>
      have hrest : ∀ src, CItem.block (.image src) ∈ rest →
          src.stype = "base64" ∨ src.stype = "url" :=
        fun src hm => h src (List.mem_cons_of_mem _ hm)
      cases it with
      | str s =>
          simpa [ClaudeToOpenAI.convertItems, claudeImageUrls,
                 List.filterMap_cons] using ih hrest
      | block b =>
          cases b with
          | image src =>
              rcases h src (List.mem_cons_self _ _) with hb | hb <;>
                simpa [ClaudeToOpenAI.convertItems, claudeImageUrls,
                       List.filterMap_cons, hb] using ih hrest
          | _ =>
              simp_all [ClaudeToOpenAI.convertItems, claudeImageUrls,
                        List.filterMap_cons]

theorem outImageUrls_toolCallMsgs (l : List OutMessage)
    (h : ∀ m ∈ l, ∃ c tcs, m = OutMessage.toolCallMsg c tcs) :
    outImageUrls l = [] := by
  induction l with
  | nil => rfl
  | cons m rest ih =>
      obtain ⟨c, tcs, rfl⟩ := h m (List.mem_cons_self _ _)
      simpa [outImageUrls, concatMap_cons] using
        ih (fun m hm => h m (List.mem_cons_of_mem _ hm))

/-- Claim C4 counterexample: an image block sharing an assistant turn with a
tool-use block is silently dropped by the Claude-to-OpenAI converter — the
input turn contains one image, the output contains none. -/
theorem c4_counterexample :
    ClaudeToOpenAI.convert_messages
        [⟨"assistant",
          .list [.block (.image ⟨"base64", some "image/png", "QUJD", ""⟩),
                 .block (.tool_use (some "c1") (some "f") (.obj .nil))],
          none⟩] =
      [.toolCallMsg .null [⟨"c1", "function", "f", "\x7b\x7d"⟩]] ∧
    outImageUrls (ClaudeToOpenAI.convert_messages
        [⟨"assistant",
          .list [.block (.image ⟨"base64", some "image/png", "QUJD", ""⟩),
                 .block (.tool_use (some "c1") (some "f") (.obj .nil))],
          none⟩]) = [] ∧
    (([.block (.image ⟨"base64", some "image/png", "QUJD", ""⟩),
       .block (.tool_use (some "c1") (some "f") (.obj .nil))] :
        List CItem).filter isImageItem).length = 1 :=
  ⟨by decide, by decide, by decide⟩

/-- Claim C4 (amended): image blocks are carried over in order — the
Claude-to-Gemini converter turns every image of a non-tool, non-system turn
into an `inline_data` part, and the Claude-to-OpenAI converter turns every
base64- or url-sourced image of a turn without tool blocks into an
`image_url` part — EXCEPT that in the Claude-to-OpenAI converter an image
sharing an assistant turn with a tool-use block is dropped: the emitted
tool-call turns keep only the turn's text. -/
theorem c4_amended :
    (∀ (m : ClaudeMessage) (items : List CItem),
      m.role ≠ "tool" → m.role ≠ "system" → m.content = .list items →
      gInlineImages (ClaudeToGemini.convert_messages [m]) =
        claudeInlineImages items) ∧
    (∀ (m : ClaudeMessage) (items : List CItem),
      m.content = .list items →
      (∀ it ∈ items, isToolUseItem it = false) →
      (∀ it ∈ items, isToolResultItem it = false) →
      (∀ src, CItem.block (.image src) ∈ items →
        src.stype = "base64" ∨ src.stype = "url") →
      outImageUrls (ClaudeToOpenAI.convert_messages [m]) =
        claudeImageUrls items) ∧
    (∀ (m : ClaudeMessage) (items : List CItem),
      m.role = "assistant" → m.content = .list items →
      items.filterMap ClaudeToOpenAI.asToolUse ≠ [] →
      outImageUrls (ClaudeToOpenAI.convert_messages [m]) = []) := by
  refine ⟨?_, ?_, ?_⟩
  · intro m items h1 h2 h3
    simp only [ClaudeToGemini.convert_messages, concatMap_cons, concatMap_nil,
               List.append_nil, ClaudeToGemini.convertOne, h1, h2, h3,
               if_false, ClaudeToGemini.partsOf]
    simp only [gInlineImages, concatMap_cons, concatMap_nil, List.append_nil]
    exact c2g_image_parts_aux items
  · intro m items hc hnu hnr himg
    have htu : items.filterMap ClaudeToOpenAI.asToolUse = [] := by
      rw [List.filterMap_eq_nil_iff]
      intro it hit
      have := hnu it hit
      cases it with
      | str s => rfl
      | block b => cases b <;> simp_all [isToolUseItem, ClaudeToOpenAI.asToolUse]
    have htr : items.filterMap ClaudeToOpenAI.asToolResult = [] := by
      rw [List.filterMap_eq_nil_iff]
      intro it hit
      have := hnr it hit
      cases it with
      | str s => rfl
      | block b => cases b <;> simp_all [isToolResultItem, ClaudeToOpenAI.asToolResult]
    simp only [ClaudeToOpenAI.convert_messages, concatMap_cons, concatMap_nil,
               List.append_nil, ClaudeToOpenAI.convertOne, hc, htu, htr]
    simp only [List.isEmpty_nil, not_true, false_and, if_false,
               ClaudeToOpenAI.plainContent]
    by_cases hps : (ClaudeToOpenAI.convertItems items).isEmpty
    · rw [List.isEmpty_iff] at hps
      have := c2o_image_urls_aux items himg
      rw [hps] at this
      simp only [hps, List.isEmpty_nil, if_true]
      simp [outImageUrls, concatMap_cons, concatMap_nil, ← this]
    · simp only [hps, if_false]
      simp only [outImageUrls, concatMap_cons, concatMap_nil, List.append_nil]
      exact c2o_image_urls_aux items himg
  · intro m items h1 h2 h3
    have hne : ¬ (items.filterMap ClaudeToOpenAI.asToolUse).isEmpty = true := by
      rw [List.isEmpty_iff]; exact h3
    simp only [ClaudeToOpenAI.convert_messages, concatMap_cons, concatMap_nil,
               List.append_nil, ClaudeToOpenAI.convertOne, h1, h2]
    rw [if_pos]
    · apply outImageUrls_toolCallMsgs
      intro x hx
      rw [List.mem_map] at hx
      obtain ⟨u, _, rfl⟩ := hx
      exact ⟨_, _, rfl⟩
    · exact ⟨hne, trivial⟩

/-- Witness for C4 at concrete inputs. -/
theorem c4_witness :
    gInlineImages (ClaudeToGemini.convert_messages
        [⟨"user", .list [.block (.image ⟨"base64", some "image/png", "QUJD", ""⟩),
                         .block (.text "hi")], none⟩]) =
      claudeInlineImages
        [.block (.image ⟨"base64", some "image/png", "QUJD", ""⟩),
         .block (.text "hi")] ∧
    outImageUrls (ClaudeToOpenAI.convert_messages
        [⟨"user", .list [.block (.image ⟨"url", none, "", "http:x"⟩),
                         .block (.text "hi")], none⟩]) =
      claudeImageUrls
        [.block (.image ⟨"url", none, "", "http:x"⟩), .block (.text "hi")] ∧
    outImageUrls (ClaudeToOpenAI.convert_messages
        [⟨"assistant",
          .list [.block (.image ⟨"base64", some "image/png", "QUJD", ""⟩),
                 .block (.tool_use (some "c1") (some "f") (.obj .nil))],
          none⟩]) = [] :=
  ⟨c4_amended.1 _ _ (by decide) (by decide) rfl,
   c4_amended.2.1 _ _ rfl (by decide) (by decide)
     (by
       intro src h
       rcases List.mem_cons.mp h with h1 | h1
       · cases h1
         right
         rfl
       · rcases List.mem_cons.mp h1 with h2 | h2
         · cases h2
         · cases h2),
   c4_amended.2.2 _ _ rfl rfl (by decide)⟩

/- ===== C5 ===== -/

theorem intercalate_nil (s : String) : String.intercalate s [] = "" := rfl

theorem cevFields_cons (k : String) (v : Json) (rest : JsonObj) :
    cevFields (.cons k v rest) =
      .cons k
        (if k = "enum" then
          match v with
          | .arr xs => .arr (stringifyEnum xs)
          | _ => v
         else if k = "properties" then
          match v with
          | .obj ps => .obj (cevProps ps)
          | _ => v
         else if k = "items" then convert_enum_values v
         else if k = "additionalProperties" then
          match v with
          | .obj _ => convert_enum_values v
          | _ => v
         else v)
        (cevFields rest) := by
  rcases v with _ | b | n | s | xs | ps <;> rfl

mutual
theorem cev_of_noEnum : ∀ j : Json, noEnum j = true → convert_enum_values j = j
  | .null, _ => rfl
  | .bool _, _ => rfl
  | .num _, _ => rfl
  | .str _, _ => rfl
  | .arr _, _ => rfl
  | .obj fs, h => by
      rw [convert_enum_values,
          cevFields_of_noEnum fs (by simpa [noEnum] using h)]
termination_by structural j => j

theorem cevFields_of_noEnum :
    ∀ fs : JsonObj, noEnumFields fs = true → cevFields fs = fs
  | .nil, _ => rfl
  | .cons k v rest, h => by
      have h' := h
      simp only [noEnumFields, Bool.and_eq_true, decide_eq_true_eq] at h'
      obtain ⟨⟨hk, hv⟩, hr⟩ := h'
      rw [cevFields_cons, cevFields_of_noEnum rest hr, if_neg hk]
      by_cases hp : k = "properties"
      · rw [if_pos hp]
        rcases v with _ | b | n | s | xs | ps
        · rfl
        · rfl
        · rfl
        · rfl
        · rfl
        · exact congrArg (fun x => JsonObj.cons k x rest)
            (congrArg Json.obj
              (cevProps_of_noEnum ps (by simpa [noEnum] using hv)))
      · rw [if_neg hp]
        by_cases hi : k = "items"
        · rw [if_pos hi, cev_of_noEnum v hv]
        · rw [if_neg hi]
          by_cases ha : k = "additionalProperties"
          · rw [if_pos ha]
            rcases v with _ | b | n | s | xs | ps
            · rfl
            · rfl
            · rfl
            · rfl
            · rfl
            · exact congrArg (fun x => JsonObj.cons k x rest)
                (cev_of_noEnum (.obj ps) hv)
          · rw [if_neg ha]
termination_by structural fs => fs

theorem cevProps_of_noEnum :
    ∀ ps : JsonObj, noEnumFields ps = true → cevProps ps = ps
  | .nil, _ => rfl
  | .cons k v rest, h => by
      have h' := h
      simp only [noEnumFields, Bool.and_eq_true, decide_eq_true_eq] at h'
      obtain ⟨⟨_, hv⟩, hr⟩ := h'
      rw [cevProps, cev_of_noEnum v hv, cevProps_of_noEnum rest hr]
termination_by structural ps => ps
end

/-- Claim C5 counterexample: the OpenAI-to-Gemini tool translator does NOT
pass the schema body through structurally unchanged — an integer enum
`[1, 2]` comes out as the string enum `["1", "2"]`. -/
theorem c5_counterexample :
    OpenAIToGemini.convert_tools
        [⟨"function", "f", "",
          .obj (jobj [("type", .str "integer"),
                      ("enum", .arr (jarr [.num 1, .num 2]))])⟩] =
      [⟨[⟨"f", "",
          .obj (jobj [("type", .str "integer"),
                      ("enum", .arr (jarr [.str "1", .str "2"]))])⟩]⟩] ∧
    Json.obj (jobj [("type", .str "integer"),
                    ("enum", .arr (jarr [.str "1", .str "2"]))]) ≠
      Json.obj (jobj [("type", .str "integer"),
                      ("enum", .arr (jarr [.num 1, .num 2]))]) :=
  ⟨by decide, by decide⟩

/-- Claim C5 (amended): the two Claude-source tool translators pass every
declaration's schema through structurally unchanged (only the field rename
and container re-wrapping differ); the OpenAI-to-Gemini translator instead
emits `convert_enum_values` of the schema — which recursively stringifies
enum lists and is the identity exactly on schemas without an `enum` key. -/
theorem c5_amended :
    (∀ tools : List ClaudeTool,
      (ClaudeToGemini.convert_tools tools).map GFunctionDecl.parameters =
          tools.map ClaudeTool.input_schema ∧
      (ClaudeToOpenAI.convert_tools tools).map OAITool.parameters =
          tools.map ClaudeTool.input_schema) ∧
    (∀ ts : List OAITool, (∀ t ∈ ts, t.ttype = "function") →
      concatMap GTool.functionDeclarations (OpenAIToGemini.convert_tools ts) =
        ts.map (fun t =>
          (⟨t.name, t.description, convert_enum_values t.parameters⟩ :
            GFunctionDecl))) ∧
    (∀ j : Json, noEnum j = true → convert_enum_values j = j) := by
  refine ⟨?_, ?_, cev_of_noEnum⟩
  · intro tools
    constructor
    · simp [ClaudeToGemini.convert_tools, List.map_map, Function.comp_def]
    · simp [ClaudeToOpenAI.convert_tools, List.map_map, Function.comp_def]
  · intro ts hts
    have hdecls : ts.filterMap (fun t =>
        if t.ttype = "function" then
          some (⟨t.name, t.description, convert_enum_values t.parameters⟩ :
            GFunctionDecl)
        else none) =
        ts.map (fun t =>
          (⟨t.name, t.description, convert_enum_values t.parameters⟩ :
            GFunctionDecl)) := by
      induction ts with
      | nil => rfl
      | cons t rest ih =>
          rw [List.filterMap_cons, List.map_cons,
              if_pos (hts t (List.mem_cons_self _ _)),
              ih (fun u hu => hts u (List.mem_cons_of_mem _ hu))]
    rw [OpenAIToGemini.convert_tools]
    simp only [hdecls]
    cases hts' : ts.map (fun t =>
        (⟨t.name, t.description, convert_enum_values t.parameters⟩ :
          GFunctionDecl)) with
    | nil => simp [concatMap_nil]
    | cons d ds => simp [concatMap_cons, concatMap_nil]

/-- Witness for C5 at concrete inputs. -/
theorem c5_witness :
    ((ClaudeToGemini.convert_tools [⟨"g", "d", .str "S"⟩]).map
        GFunctionDecl.parameters = [Json.str "S"] ∧
      (ClaudeToOpenAI.convert_tools [⟨"g", "d", .str "S"⟩]).map
        OAITool.parameters = [Json.str "S"]) ∧
    concatMap GTool.functionDeclarations
        (OpenAIToGemini.convert_tools
          [⟨"function", "f", "",
            .obj (jobj [("type", .str "string")])⟩]) =
      [⟨"f", "", convert_enum_values (.obj (jobj [("type", .str "string")]))⟩] ∧
    convert_enum_values (.obj (jobj [("type", .str "string")])) =
      .obj (jobj [("type", .str "string")]) :=
  ⟨c5_amended.1 [⟨"g", "d", .str "S"⟩],
   c5_amended.2.1 [⟨"function", "f", "", .obj (jobj [("type", .str "string")])⟩]
     (by decide),
   c5_amended.2.2 (.obj (jobj [("type", .str "string")])) (by decide)⟩

/- ===== C6 ===== -/

/-- Claim C6: correlation resolution.  A call `(c, lookup)` recorded by an
assistant turn resolves a later result carrying only the identifier `c`;
the map is built by one scan over all turns before any result is
translated, and when the same identifier is recorded twice the
last-recorded name wins.  Shown for both converters that build a map
(Claude-to-OpenAI and OpenAI-to-Gemini). -/
theorem c6_correlation :
    ∀ (c n n2 t : String) (a a2 : Json),
      c ≠ "" → n ≠ "" → n2 ≠ "" →
      (ClaudeToOpenAI.convert_messages [cCallMsg c n a, cResMsg c t] =
        [.toolCallMsg .null [⟨c, "function", n, jsonDumps a⟩],
         .toolResultMsg c n t]) ∧
      ((OpenAIToGemini.convert_messages [oCallMsg c n a, oToolMsg c t]).1 =
        [⟨"model", [.functionCall n a]⟩,
         ⟨"user", [.functionResponse n t]⟩]) ∧
      (ClaudeToOpenAI.convert_messages
          [cCallMsg c n a, cCallMsg c n2 a2, cResMsg c t] =
        [.toolCallMsg .null [⟨c, "function", n, jsonDumps a⟩],
         .toolCallMsg .null [⟨c, "function", n2, jsonDumps a2⟩],
         .toolResultMsg c n2 t]) ∧
      ((OpenAIToGemini.convert_messages
          [oCallMsg c n a, oCallMsg c n2 a2, oToolMsg c t]).1 =
        [⟨"model", [.functionCall n a]⟩,
         ⟨"model", [.functionCall n2 a2]⟩,
         ⟨"user", [.functionResponse n2 t]⟩]) := by
  intro c n n2 t a a2 hc hn hn2
  refine ⟨?_, ?_, ?_, ?_⟩ <;>
    simp [ClaudeToOpenAI.convert_messages, ClaudeToOpenAI.convertOne,
          concatMap_cons, concatMap_nil, ClaudeToOpenAI.tool_use_map,
          ClaudeToOpenAI.toolUsePairs, ClaudeToOpenAI.asToolUse,
          ClaudeToOpenAI.asToolResult, ClaudeToOpenAI.textContent,
          cCallMsg, cResMsg, mapGet, hc, hn, hn2, intercalate_nil,
          OpenAIToGemini.convert_messages, OpenAIToGemini.convertOne,
          OpenAIToGemini.tool_call_id_to_name, OpenAIToGemini.toolCallPairs,
          OpenAIToGemini.geminiRole, oCallMsg, oToolMsg, ostr]

/-- Witness for C6 at the spec's own example: call `c1`/`lookup` then a
result referencing `c1`. -/
theorem c6_witness :
    (ClaudeToOpenAI.convert_messages [cCallMsg "c1" "lookup" (.obj .nil),
        cResMsg "c1" "res"] =
      [.toolCallMsg .null [⟨"c1", "function", "lookup", jsonDumps (.obj .nil)⟩],
       .toolResultMsg "c1" "lookup" "res"]) ∧
    ((OpenAIToGemini.convert_messages [oCallMsg "c1" "lookup" (.obj .nil),
        oToolMsg "c1" "res"]).1 =
      [⟨"model", [.functionCall "lookup" (.obj .nil)]⟩,
       ⟨"user", [.functionResponse "lookup" "res"]⟩]) ∧
    (ClaudeToOpenAI.convert_messages [cCallMsg "c1" "lookup" (.obj .nil),
        cCallMsg "c1" "relookup" (.obj .nil), cResMsg "c1" "res"] =
      [.toolCallMsg .null [⟨"c1", "function", "lookup", jsonDumps (.obj .nil)⟩],
       .toolCallMsg .null [⟨"c1", "function", "relookup", jsonDumps (.obj .nil)⟩],
       .toolResultMsg "c1" "relookup" "res"]) ∧
    ((OpenAIToGemini.convert_messages [oCallMsg "c1" "lookup" (.obj .nil),
        oCallMsg "c1" "relookup" (.obj .nil), oToolMsg "c1" "res"]).1 =
      [⟨"model", [.functionCall "lookup" (.obj .nil)]⟩,
       ⟨"model", [.functionCall "relookup" (.obj .nil)]⟩,
       ⟨"user", [.functionResponse "relookup" "res"]⟩]) :=
  c6_correlation "c1" "lookup" "relookup" "res" (.obj .nil) (.obj .nil)
    (by decide) (by decide) (by decide)

/- ===== C7 ===== -/

theorem outToolCallPairs_append (xs ys : List OutMessage) :
    outToolCallPairs (xs ++ ys) = outToolCallPairs xs ++ outToolCallPairs ys := by
  simp [outToolCallPairs, concatMap_append]

theorem outToolCallPairs_toolCallMsgs (c : OutContent)
    (l : List (Option String × Option String × Json)) :
    outToolCallPairs (l.map (fun u =>
      OutMessage.toolCallMsg c
        [⟨u.1.getD "", "function", u.2.1.getD "", jsonDumps u.2.2⟩])) =
      l.map (fun u => (u.1.getD "", u.2.1.getD "")) := by
  induction l with
  | nil => rfl
  | cons u rest ih =>
      simp only [List.map_cons, outToolCallPairs, concatMap_cons] at ih ⊢
      rw [ih]
      rfl

theorem outToolCallPairs_eq_nil (ms : List OutMessage)
    (h : ∀ m ∈ ms, ∀ ct tcs, m ≠ OutMessage.toolCallMsg ct tcs) :
    outToolCallPairs ms = [] := by
  induction ms with
  | nil => rfl
  | cons m rest ih =>
      have hrest := ih (fun x hx => h x (List.mem_cons_of_mem _ hx))
      cases m with
      | plain r c =>
          simpa [outToolCallPairs, concatMap_cons] using hrest
      | toolCallMsg c tcs =>
          exact absurd rfl (h _ (List.mem_cons_self _ _) c tcs)
      | toolResultMsg i n c =>
          simpa [outToolCallPairs, concatMap_cons] using hrest

theorem c7_one (map : List (String × String)) (m : ClaudeMessage) :
    outToolCallPairs (ClaudeToOpenAI.convertOne map m) =
      (if m.role = "assistant" then
        match m.content with
        | CContent.list items =>
            (items.filterMap ClaudeToOpenAI.asToolUse).map
              (fun u => (u.1.getD "", u.2.1.getD ""))
        | _ => []
      else []) := by
  cases hc : m.content with
  | str s =>
      simp only [ClaudeToOpenAI.convertOne, hc]
      have : outToolCallPairs [OutMessage.plain m.role (.str s)] = [] := rfl
      rw [this]
      split <;> rfl
  | list items =>
      simp only [ClaudeToOpenAI.convertOne, hc]
      by_cases hr : m.role = "assistant"
      · by_cases ht : (items.filterMap ClaudeToOpenAI.asToolUse).isEmpty
        · rw [if_neg (by simp [ht]), if_pos hr]
          rw [List.isEmpty_iff] at ht
          rw [ht, List.map_nil]
          by_cases htr : (items.filterMap ClaudeToOpenAI.asToolResult).isEmpty
          · rw [if_neg (by simp [htr])]
            rfl
          · rw [if_pos (by simp [htr])]
            apply outToolCallPairs_eq_nil
            intro x hx ct tcs hne
            rw [List.mem_map] at hx
            obtain ⟨p, _, rfl⟩ := hx
            exact OutMessage.noConfusion hne
        · rw [if_pos ⟨by simp [ht], hr⟩, if_pos hr]
          exact outToolCallPairs_toolCallMsgs _ _
      · rw [if_neg (fun hand => hr hand.2), if_neg hr]
        by_cases htr : (items.filterMap ClaudeToOpenAI.asToolResult).isEmpty
        · rw [if_neg (by simp [htr])]
          rfl
        · rw [if_pos (by simp [htr])]
          apply outToolCallPairs_eq_nil
          intro x hx ct tcs hne
          rw [List.mem_map] at hx
          obtain ⟨p, _, rfl⟩ := hx
          exact OutMessage.noConfusion hne

theorem c7_aux (map : List (String × String)) :
    ∀ msgs : List ClaudeMessage,
      outToolCallPairs (concatMap (ClaudeToOpenAI.convertOne map) msgs) =
        claudeCallPairs msgs := by
  intro msgs
  induction msgs with
  | nil => rfl
  | cons m rest ih =>
      rw [concatMap_cons, outToolCallPairs_append, ih, c7_one]
      simp only [claudeCallPairs, concatMap_cons]

theorem c7_singleton (map : List (String × String)) (msg : ClaudeMessage) :
    ∀ m ∈ ClaudeToOpenAI.convertOne map msg, ∀ ct tcs,
      m = OutMessage.toolCallMsg ct tcs → tcs.length = 1 := by
  intro m hm ct tcs heq
  cases hc : msg.content with
  | str s =>
      simp only [ClaudeToOpenAI.convertOne, hc, List.mem_singleton] at hm
      rw [hm] at heq
      exact OutMessage.noConfusion heq
  | list items =>
      simp only [ClaudeToOpenAI.convertOne, hc] at hm
      by_cases hcond : ¬(items.filterMap ClaudeToOpenAI.asToolUse).isEmpty = true
          ∧ msg.role = "assistant"
      · rw [if_pos hcond] at hm
        rw [List.mem_map] at hm
        obtain ⟨u, _, rfl⟩ := hm
        injection heq with h1 h2
        rw [← h2]
        rfl
      · rw [if_neg hcond] at hm
        by_cases htr : (items.filterMap ClaudeToOpenAI.asToolResult).isEmpty
        · rw [if_neg (by simp [htr]), List.mem_singleton] at hm
          rw [hm] at heq
          exact OutMessage.noConfusion heq
        · rw [if_pos (by simp [htr])] at hm
          rw [List.mem_map] at hm
          obtain ⟨p, _, rfl⟩ := hm
          exact OutMessage.noConfusion heq

/-- Claim C7: turn-count conservation for the Claude-to-OpenAI converter —
the `(id, name)` sequence of the emitted assistant tool-call turns equals
the `(id, name)` sequence of the tool-use blocks of the assistant turns of
the input, in order (so k blocks yield exactly k turns), and every emitted
tool-call turn carries exactly one `tool_calls` entry. -/
theorem c7_conservation :
    ∀ msgs : List ClaudeMessage,
      outToolCallPairs (ClaudeToOpenAI.convert_messages msgs) =
        claudeCallPairs msgs ∧
      ∀ m ∈ ClaudeToOpenAI.convert_messages msgs, ∀ ct tcs,
        m = OutMessage.toolCallMsg ct tcs → tcs.length = 1 := by
  intro msgs
  refine ⟨c7_aux _ msgs, ?_⟩
  intro m hm ct tcs heq
  rw [ClaudeToOpenAI.convert_messages] at hm
  obtain ⟨msg, _, hin⟩ := mem_concatMap.mp hm
  exact c7_singleton _ msg m hin ct tcs heq

/-- Witness for C7 at a concrete conversation: two tool-use blocks in one
assistant turn and one more in a second assistant turn yield three
single-call turns. -/
theorem c7_witness :
    outToolCallPairs (ClaudeToOpenAI.convert_messages
        [⟨"assistant", .list [.block (.tool_use (some "a") (some "f") (.obj .nil)),
            .block (.tool_use (some "b") (some "g") (.obj .nil))], none⟩,
         ⟨"assistant", .list [.block (.text "hi"),
            .block (.tool_use (some "c") (some "h") (.obj .nil))], none⟩]) =
      claudeCallPairs
        [⟨"assistant", .list [.block (.tool_use (some "a") (some "f") (.obj .nil)),
            .block (.tool_use (some "b") (some "g") (.obj .nil))], none⟩,
         ⟨"assistant", .list [.block (.text "hi"),
            .block (.tool_use (some "c") (some "h") (.obj .nil))], none⟩] ∧
    ([⟨"a", "function", "f", jsonDumps (.obj .nil)⟩] :
        List OutToolCall).length = 1 :=
  ⟨(c7_conservation _).1,
   (c7_conservation [⟨"assistant",
      .list [.block (.tool_use (some "a") (some "f") (.obj .nil)),
             .block (.tool_use (some "b") (some "g") (.obj .nil))], none⟩,
     ⟨"assistant", .list [.block (.text "hi"),
        .block (.tool_use (some "c") (some "h") (.obj .nil))], none⟩]).2
     (.toolCallMsg .null [⟨"a", "function", "f", jsonDumps (.obj .nil)⟩])
     (by decide) .null [⟨"a", "function", "f", jsonDumps (.obj .nil)⟩] rfl⟩

/- ===== C8 ===== -/

theorem takeWhile_append_eq (p : α → Bool) :
    ∀ (xs : List α) (y : α) (ys : List α),
      (∀ x ∈ xs, p x = true) → p y = false →
      (xs ++ y :: ys).takeWhile p = xs := by
  intro xs y ys hall hy
  induction xs with
  | nil => simp [List.takeWhile_cons, hy]
  | cons x rest ih =>
      have hx := hall x (List.mem_cons_self _ _)
      simp [List.takeWhile_cons, hx,
            ih (fun z hz => hall z (List.mem_cons_of_mem _ hz))]

theorem searchObs_cons (c : Char) (cs : List Char) :
    ClaudeToGemini.searchObs (c :: cs) =
      (match ClaudeToGemini.matchAt (c :: cs) with
       | some r => some r
       | none => ClaudeToGemini.searchObs cs) := rfl

theorem searchObs_ne_nil (cs : List Char) (h : cs ≠ []) :
    ClaudeToGemini.searchObs cs =
      (match ClaudeToGemini.matchAt cs with
       | some r => some r
       | none => ClaudeToGemini.searchObs cs.tail) := by
  cases cs with
  | nil => exact absurd rfl h
  | cons c cs => rfl

theorem matchAt_head (nm suf : List Char)
    (hne : nm ≠ []) (hbt : ∀ c ∈ nm, c ≠ '`') :
    ClaudeToGemini.matchAt (ClaudeToGemini.obsLit ++ (nm ++ '`' :: suf)) =
      some (String.mk nm) := by
  have hpre : ClaudeToGemini.obsLit.isPrefixOf
      (ClaudeToGemini.obsLit ++ (nm ++ '`' :: suf)) = true := by
    rw [List.isPrefixOf_iff_prefix]
    exact List.prefix_append _ _
  have htw : (nm ++ '`' :: suf).takeWhile (fun c => c ≠ '`') = nm :=
    takeWhile_append_eq _ nm '`' suf
      (fun x hx => by simpa using hbt x hx) (by simp)
  simp only [ClaudeToGemini.matchAt, hpre, if_true, List.drop_left, htw]
  simp [hne]

theorem searchObs_prefix_free :
    ∀ (u : List Char), (∀ c ∈ u, c ≠ '`') →
    ∀ (nm suf : List Char), nm ≠ [] → (∀ c ∈ nm, c ≠ '`') →
      ClaudeToGemini.searchObs
          (u ++ (ClaudeToGemini.obsLit ++ (nm ++ '`' :: suf))) =
        some (String.mk nm) := by
  intro u
  induction u with
  | nil =>
      intro _ nm suf hne hbt
      rw [List.nil_append,
          searchObs_ne_nil _ (by simp [ClaudeToGemini.obsLit]),
          matchAt_head nm suf hne hbt]
  | cons c u' ih =>
      intro hu nm suf hne hbt
      rw [List.cons_append, searchObs_cons]
      have hm : ClaudeToGemini.matchAt
          (c :: (u' ++ (ClaudeToGemini.obsLit ++ (nm ++ '`' :: suf)))) =
            none := by
        cases hp : ClaudeToGemini.obsLit.isPrefixOf
            (c :: (u' ++ (ClaudeToGemini.obsLit ++ (nm ++ '`' :: suf)))) with
        | false => simp [ClaudeToGemini.matchAt, hp]
        | true =>
            exfalso
            have hpre := List.isPrefixOf_iff_prefix.mp hp
            have htake := List.prefix_iff_eq_take.mp hpre
            have hs' : c :: (u' ++ (ClaudeToGemini.obsLit ++ (nm ++ '`' :: suf))) =
                ((c :: u') ++ "Observation of Tool ".toList) ++
                  ('`' :: (nm ++ '`' :: suf)) := by
              have hsplit : ClaudeToGemini.obsLit =
                  "Observation of Tool ".toList ++ ['`'] := by decide
              rw [hsplit]
              simp [List.append_assoc]
            have hlen : ClaudeToGemini.obsLit.length ≤
                ((c :: u') ++ "Observation of Tool ".toList).length := by
              have h21 : ClaudeToGemini.obsLit.length = 21 := by decide
              have h20 : "Observation of Tool ".toList.length = 20 := by decide
              rw [h21, List.length_append, List.length_cons, h20]
              omega
            rw [hs', List.take_append_of_le_length hlen] at htake
            have hmem : '`' ∈ (c :: u') ++ "Observation of Tool ".toList := by
              have h0 : '`' ∈ ClaudeToGemini.obsLit := by decide
              rw [htake] at h0
              exact List.take_subset _ _ h0
            rcases List.mem_append.mp hmem with h1 | h1
            · exact hu '`' h1 rfl
            · exact absurd h1 (by decide)
      rw [hm]
      exact ih (fun x hx => hu x (List.mem_cons_of_mem _ hx)) nm suf hne hbt

theorem searchObs_none (s : List Char) (h : ∀ c ∈ s, c ≠ '`') :
    ClaudeToGemini.searchObs s = none := by
  induction s with
  | nil => rfl
  | cons c cs ih =>
      rw [searchObs_cons]
      have hm : ClaudeToGemini.matchAt (c :: cs) = none := by
        cases hp : ClaudeToGemini.obsLit.isPrefixOf (c :: cs) with
        | false => simp [ClaudeToGemini.matchAt, hp]
        | true =>
            exfalso
            have hpre := List.isPrefixOf_iff_prefix.mp hp
            exact h '`' (hpre.subset (by decide)) rfl
      rw [hm]
      exact ih (fun x hx => h x (List.mem_cons_of_mem _ hx))

/-- Claim C8: legacy-pattern recovery in the Claude-to-Gemini converter.  A
tool-result content of the form `a ++ "Observation of Tool BT nm BT" ++ b`
(with `a` and `nm` backtick-free and `nm` nonempty) resolves the
functionResponse name to `nm`; a content string with no backtick at all
resolves it to the literal `"unknown"`. -/
theorem c8_recovery :
    (∀ (a nm b rid : String),
      backtickFree a = true → backtickFree nm = true → nm ≠ "" →
      ClaudeToGemini.convert_messages
          [⟨"user", .list [.block (.tool_result rid
              (a ++ "Observation of Tool `" ++ nm ++ "`" ++ b))], none⟩] =
        [⟨"user", [.functionResponse nm
            (a ++ "Observation of Tool `" ++ nm ++ "`" ++ b)]⟩]) ∧
    (∀ (s rid : String), backtickFree s = true →
      ClaudeToGemini.convert_messages
          [⟨"user", .list [.block (.tool_result rid s)], none⟩] =
        [⟨"user", [.functionResponse "unknown" s]⟩]) := by
  constructor
  · intro a nm b rid ha hnm hne
    have hfree : ∀ {t : String}, backtickFree t = true → ∀ c ∈ t.toList, c ≠ '`' := by
      intro t ht c hc
      have := List.all_eq_true.mp ht c hc
      simpa using this
    have hlist : (a ++ "Observation of Tool `" ++ nm ++ "`" ++ b).toList =
        a.toList ++ (ClaudeToGemini.obsLit ++ (nm.toList ++ '`' :: b.toList)) := by
      show (a ++ "Observation of Tool `" ++ nm ++ "`" ++ b).data =
        a.data ++ (ClaudeToGemini.obsLit ++ (nm.data ++ '`' :: b.data))
      simp [String.data_append, ClaudeToGemini.obsLit, List.append_assoc]
    have hext : ClaudeToGemini.extract_tool_name
        (a ++ "Observation of Tool `" ++ nm ++ "`" ++ b) = some nm := by
      have hnl : nm.toList ≠ [] := by
        intro hc
        apply hne
        cases nm with
        | mk d =>
            simp only [String.toList] at hc
            rw [hc]
      rw [ClaudeToGemini.extract_tool_name, hlist,
          searchObs_prefix_free a.toList (hfree ha) nm.toList b.toList hnl
            (hfree hnm)]
      rfl
    simp [ClaudeToGemini.convert_messages, concatMap_cons, concatMap_nil,
          ClaudeToGemini.convertOne, ClaudeToGemini.partsOf,
          ClaudeToGemini.convertItem, ClaudeToGemini.geminiRole, hext]
  · intro s rid hs
    have hext : ClaudeToGemini.extract_tool_name s = none := by
      rw [ClaudeToGemini.extract_tool_name]
      exact searchObs_none s.toList (fun c hc => by
        have := List.all_eq_true.mp hs c hc
        simpa using this)
    simp [ClaudeToGemini.convert_messages, concatMap_cons, concatMap_nil,
          ClaudeToGemini.convertOne, ClaudeToGemini.partsOf,
          ClaudeToGemini.convertItem, ClaudeToGemini.geminiRole, hext]

/-- Witness for C8 at the spec's own example strings. -/
theorem c8_witness :
    ClaudeToGemini.convert_messages
        [⟨"user", .list [.block (.tool_result "id0"
            ("" ++ "Observation of Tool `" ++ "search" ++ "`" ++ ": 3 hits"))],
          none⟩] =
      [⟨"user", [.functionResponse "search"
          ("" ++ "Observation of Tool `" ++ "search" ++ "`" ++ ": 3 hits")]⟩] ∧
    ClaudeToGemini.convert_messages
        [⟨"user", .list [.block (.tool_result "id0" "no pattern here")], none⟩] =
      [⟨"user", [.functionResponse "unknown" "no pattern here"]⟩] :=
  ⟨c8_recovery.1 "" "search" ": 3 hits" "id0" (by decide) (by decide) (by decide),
   c8_recovery.2 "no pattern here" "id0" (by decide)⟩

/- ===== C9 ===== -/

theorem getKey_updateKey_self :
    ∀ (fs : JsonObj) (k : String) (f : Json → Json),
      (fs.updateKey k f).getKey k = (fs.getKey k).map f
  | .nil, _, _ => rfl
  | .cons k' v rest, k, f => by
      simp only [JsonObj.updateKey, JsonObj.getKey]
      by_cases h : k' = k
      · simp [h]
      · simp [h, getKey_updateKey_self rest k f]
termination_by structural fs => fs

theorem getKey_updateKey_other :
    ∀ (fs : JsonObj) (k k' : String) (f : Json → Json), k' ≠ k →
      (fs.updateKey k f).getKey k' = fs.getKey k'
  | .nil, _, _, _, _ => rfl
  | .cons k0 v rest, k, k', f, h => by
      simp only [JsonObj.updateKey, JsonObj.getKey]
      by_cases h0 : k0 = k <;> by_cases h1 : k0 = k' <;>
        simp_all [getKey_updateKey_other rest k k' f h]
termination_by structural fs => fs

theorem jsonMemStr_replaceStr (a b : String) (hab : a ≠ b) :
    ∀ xs : JsonArr, jsonMemStr a (replaceStr a b xs) = false
  | .nil => rfl
  | .cons x rest => by
      have ih := jsonMemStr_replaceStr a b hab rest
      rcases x with _ | bb | n | t | ys | fs
      · simpa [replaceStr, jsonMemStr] using ih
      · simpa [replaceStr, jsonMemStr] using ih
      · simpa [replaceStr, jsonMemStr] using ih
      · by_cases h : t = a
        · simp [replaceStr, jsonMemStr, h, ih, Ne.symm hab]
        · simp [replaceStr, jsonMemStr, h, ih]
      · simpa [replaceStr, jsonMemStr] using ih
      · simpa [replaceStr, jsonMemStr] using ih
termination_by structural xs => xs

theorem jsonMemStr_removeStr (a : String) :
    ∀ xs : JsonArr, jsonMemStr a (removeStr a xs) = false
  | .nil => rfl
  | .cons x rest => by
      have ih := jsonMemStr_removeStr a rest
      rcases x with _ | bb | n | t | ys | fs
      · simpa [removeStr, jsonMemStr] using ih
      · simpa [removeStr, jsonMemStr] using ih
      · simpa [removeStr, jsonMemStr] using ih
      · by_cases h : t = a
        · simpa [removeStr, jsonMemStr, h] using ih
        · simp [removeStr, jsonMemStr, h, ih]
      · simpa [removeStr, jsonMemStr] using ih
      · simpa [removeStr, jsonMemStr] using ih
termination_by structural xs => xs

theorem updateRequired_noMem (p : Json) (a b : String)
    (h : ∀ req, requiredOf p = some (.arr req) → jsonMemStr a req = false) :
    updateRequired p a b = p := by
  rcases p with _ | bb | n | s | xs | fs
  · rfl
  · rfl
  · rfl
  · rfl
  · rfl
  · rcases hr : fs.getKey "required" with _ | v
    · simp [updateRequired, hr]
    · rcases v with _ | bb | n | s | req | g
      · simp [updateRequired, hr]
      · simp [updateRequired, hr]
      · simp [updateRequired, hr]
      · simp [updateRequired, hr]
      · have := h req (by simp [requiredOf, hr])
        simp [updateRequired, hr, this]
      · simp [updateRequired, hr]

theorem requiredOf_updateRequired (p : Json) (a b : String) (hab : a ≠ b) :
    ∀ req, requiredOf (updateRequired p a b) = some (.arr req) →
      jsonMemStr a req = false := by
  intro req hreq
  rcases p with _ | bb | n | s | xs | fs
  · simp [updateRequired, requiredOf] at hreq
  · simp [updateRequired, requiredOf] at hreq
  · simp [updateRequired, requiredOf] at hreq
  · simp [updateRequired, requiredOf] at hreq
  · simp [updateRequired, requiredOf] at hreq
  · rcases hr : fs.getKey "required" with _ | v
    · simp [updateRequired, hr, requiredOf] at hreq
    · rcases v with _ | bb | n | s | req0 | g
      · simp [updateRequired, hr, requiredOf] at hreq
      · simp [updateRequired, hr, requiredOf] at hreq
      · simp [updateRequired, hr, requiredOf] at hreq
      · simp [updateRequired, hr, requiredOf] at hreq
      · by_cases hmem : jsonMemStr a req0
        · simp [updateRequired, hr, hmem, requiredOf,
                getKey_updateKey_self] at hreq
          subst hreq
          exact jsonMemStr_replaceStr a b hab req0
        · simp [updateRequired, hr, hmem, requiredOf] at hreq
          subst hreq
          simpa using hmem
      · simp [updateRequired, hr, requiredOf] at hreq

theorem updateRequired_idem (p : Json) (a b : String) (hab : a ≠ b) :
    updateRequired (updateRequired p a b) a b = updateRequired p a b :=
  updateRequired_noMem _ a b (requiredOf_updateRequired p a b hab)

theorem removeRequired_noMem (p : Json) (a : String)
    (h : ∀ req, requiredOf p = some (.arr req) → jsonMemStr a req = false) :
    removeRequired p a = p := by
  rcases p with _ | bb | n | s | xs | fs
  · rfl
  · rfl
  · rfl
  · rfl
  · rfl
  · rcases hr : fs.getKey "required" with _ | v
    · simp [removeRequired, hr]
    · rcases v with _ | bb | n | s | req | g
      · simp [removeRequired, hr]
      · simp [removeRequired, hr]
      · simp [removeRequired, hr]
      · simp [removeRequired, hr]
      · have := h req (by simp [requiredOf, hr])
        simp [removeRequired, hr, this]
      · simp [removeRequired, hr]

theorem requiredOf_removeRequired (p : Json) (a : String) :
    ∀ req, requiredOf (removeRequired p a) = some (.arr req) →
      jsonMemStr a req = false := by
  intro req hreq
  rcases p with _ | bb | n | s | xs | fs
  · simp [removeRequired, requiredOf] at hreq
  · simp [removeRequired, requiredOf] at hreq
  · simp [removeRequired, requiredOf] at hreq
  · simp [removeRequired, requiredOf] at hreq
  · simp [removeRequired, requiredOf] at hreq
  · rcases hr : fs.getKey "required" with _ | v
    · simp [removeRequired, hr, requiredOf] at hreq
    · rcases v with _ | bb | n | s | req0 | g
      · simp [removeRequired, hr, requiredOf] at hreq
      · simp [removeRequired, hr, requiredOf] at hreq
      · simp [removeRequired, hr, requiredOf] at hreq
      · simp [removeRequired, hr, requiredOf] at hreq
      · by_cases hmem : jsonMemStr a req0
        · simp [removeRequired, hr, hmem, requiredOf,
                getKey_updateKey_self] at hreq
          subst hreq
          exact jsonMemStr_removeStr a req0
        · simp [removeRequired, hr, hmem, requiredOf] at hreq
          subst hreq
          simpa using hmem
      · simp [removeRequired, hr, requiredOf] at hreq

theorem removeRequired_idem (p : Json) (a : String) :
    removeRequired (removeRequired p a) a = removeRequired p a :=
  removeRequired_noMem _ a (requiredOf_removeRequired p a)

theorem requiredOf_patchImagesType (p : Json) :
    requiredOf (patchImagesType p) = requiredOf p := by
  rcases p with _ | bb | n | s | xs | fs
  · rfl
  · rfl
  · rfl
  · rfl
  · rfl
  · rcases hprop : fs.getKey "properties" with _ | pv
    · simp [patchImagesType, hprop]
    · rcases pv with _ | b2 | n2 | s2 | a2 | ps
      · simp [patchImagesType, hprop]
      · simp [patchImagesType, hprop]
      · simp [patchImagesType, hprop]
      · simp [patchImagesType, hprop]
      · simp [patchImagesType, hprop]
      · rcases himg : ps.getKey "images" with _ | iv
        · simp [patchImagesType, hprop, himg]
        · rcases iv with _ | b3 | n3 | s3 | a3 | ifs
          · simp [patchImagesType, hprop, himg]
          · simp [patchImagesType, hprop, himg]
          · simp [patchImagesType, hprop, himg]
          · simp [patchImagesType, hprop, himg]
          · simp [patchImagesType, hprop, himg]
          · rcases htype : ifs.getKey "type" with _ | tv
            · simp [patchImagesType, hprop, himg, htype]
            · rcases tv with _ | b4 | n4 | s4 | ar | o4
              · simp [patchImagesType, hprop, himg, htype]
              · simp [patchImagesType, hprop, himg, htype]
              · simp [patchImagesType, hprop, himg, htype]
              · simp [patchImagesType, hprop, himg, htype]
              · simp [patchImagesType, hprop, himg, htype, requiredOf,
                      getKey_updateKey_other _ _ _ _ (by decide : "required" ≠ "properties")]
              · simp [patchImagesType, hprop, himg, htype]

theorem patchImagesType_idem (p : Json) :
    patchImagesType (patchImagesType p) = patchImagesType p := by
  rcases p with _ | bb | n | s | xs | fs
  · rfl
  · rfl
  · rfl
  · rfl
  · rfl
  · rcases hprop : fs.getKey "properties" with _ | pv
    · simp [patchImagesType, hprop]
    · rcases pv with _ | b2 | n2 | s2 | a2 | ps
      · simp [patchImagesType, hprop]
      · simp [patchImagesType, hprop]
      · simp [patchImagesType, hprop]
      · simp [patchImagesType, hprop]
      · simp [patchImagesType, hprop]
      · rcases himg : ps.getKey "images" with _ | iv
        · simp [patchImagesType, hprop, himg]
        · rcases iv with _ | b3 | n3 | s3 | a3 | ifs
          · simp [patchImagesType, hprop, himg]
          · simp [patchImagesType, hprop, himg]
          · simp [patchImagesType, hprop, himg]
          · simp [patchImagesType, hprop, himg]
          · simp [patchImagesType, hprop, himg]
          · rcases htype : ifs.getKey "type" with _ | tv
            · simp [patchImagesType, hprop, himg, htype]
            · rcases tv with _ | b4 | n4 | s4 | ar | o4
              · simp [patchImagesType, hprop, himg, htype]
              · simp [patchImagesType, hprop, himg, htype]
              · simp [patchImagesType, hprop, himg, htype]
              · simp [patchImagesType, hprop, himg, htype]
              · simp [patchImagesType, hprop, himg, htype,
                      getKey_updateKey_self]
              · simp [patchImagesType, hprop, himg, htype]

theorem gemini_edit_idem (p : Json) :
    patchImagesType (updateRequired
        (patchImagesType (updateRequired p "image" "images"))
        "image" "images") =
      patchImagesType (updateRequired p "image" "images") := by
  have h1 : updateRequired
      (patchImagesType (updateRequired p "image" "images"))
      "image" "images" =
      patchImagesType (updateRequired p "image" "images") := by
    apply updateRequired_noMem
    intro req hreq
    rw [requiredOf_patchImagesType] at hreq
    exact requiredOf_updateRequired p _ _ (by decide) req hreq
  rw [h1]
  exact patchImagesType_idem _

theorem patchFunctionParams_idem (name : String) (p : Json) :
    patchFunctionParams name (patchFunctionParams name p) =
      patchFunctionParams name p := by
  by_cases h1 : name = "segment_anything"
  · simp [patchFunctionParams, h1]
    exact updateRequired_idem p _ _ (by decide)
  · by_cases h2 : name = "Pira_image2image"
    · simp [patchFunctionParams, h1, h2]
      exact removeRequired_idem p _
    · by_cases h3 : name = "gemini_edit"
      · simp [patchFunctionParams, h1, h2, h3]
        exact gemini_edit_idem p
      · by_cases h4 : name = "outpaint"
        · simp [patchFunctionParams, h1, h2, h3, h4]
          exact updateRequired_idem p _ _ (by decide)
        · simp [patchFunctionParams, h1, h2, h3, h4]

/-- Claim C9: the Schema Repair Pass is idempotent — applying
`fix_request_issues` twice yields the same request as applying it once,
on every request whose declaration parameters are well-shaped for the
patches (`wfRequest`, the region where CPython runs them without raising). -/
theorem c9_idempotence (r : GeminiRequest) (hwf : wfRequest r = true) :
    fix_request_issues (fix_request_issues r) = fix_request_issues r := by
  rcases r with ⟨cs, sys, ts⟩
  simp only [fix_request_issues]
  congr 1
  · rw [List.filter_filter]
    simp
  · rw [List.map_map]
    apply List.map_congr_left
    intro t _
    rcases t with ⟨decls⟩
    simp only [Function.comp_def]
    congr 1
    rw [List.map_map]
    apply List.map_congr_left
    intro d _
    simp [Function.comp_def, patchFunctionParams_idem]

/-- Witness for C9 at a request exercising all four named patches and the
empty-parts filter. -/
theorem c9_witness :
    wfRequest
      ⟨[⟨"user", [.text "q"]⟩, ⟨"model", []⟩], none,
       [⟨[⟨"segment_anything", "",
            .obj (jobj [("required", .arr (jarr [.str "object"]))])⟩,
          ⟨"Pira_image2image", "",
            .obj (jobj [("required", .arr (jarr [.str "cfg", .str "x"]))])⟩,
          ⟨"gemini_edit", "",
            .obj (jobj [("required", .arr (jarr [.str "image"])),
              ("properties", .obj (jobj [("images",
                .obj (jobj [("type",
                  .arr (jarr [.str "array", .str "null"]))]))]))])⟩,
          ⟨"outpaint", "",
            .obj (jobj [("required", .arr (jarr [.str "prompt"]))])⟩]⟩]⟩ =
      true ∧
    fix_request_issues (fix_request_issues
      ⟨[⟨"user", [.text "q"]⟩, ⟨"model", []⟩], none,
       [⟨[⟨"segment_anything", "",
            .obj (jobj [("required", .arr (jarr [.str "object"]))])⟩,
          ⟨"Pira_image2image", "",
            .obj (jobj [("required", .arr (jarr [.str "cfg", .str "x"]))])⟩,
          ⟨"gemini_edit", "",
            .obj (jobj [("required", .arr (jarr [.str "image"])),
              ("properties", .obj (jobj [("images",
                .obj (jobj [("type",
                  .arr (jarr [.str "array", .str "null"]))]))]))])⟩,
          ⟨"outpaint", "",
            .obj (jobj [("required", .arr (jarr [.str "prompt"]))])⟩]⟩]⟩) =
    fix_request_issues
      ⟨[⟨"user", [.text "q"]⟩, ⟨"model", []⟩], none,
       [⟨[⟨"segment_anything", "",
            .obj (jobj [("required", .arr (jarr [.str "object"]))])⟩,
          ⟨"Pira_image2image", "",
            .obj (jobj [("required", .arr (jarr [.str "cfg", .str "x"]))])⟩,
          ⟨"gemini_edit", "",
            .obj (jobj [("required", .arr (jarr [.str "image"])),
              ("properties", .obj (jobj [("images",
                .obj (jobj [("type",
                  .arr (jarr [.str "array", .str "null"]))]))]))])⟩,
          ⟨"outpaint", "",
            .obj (jobj [("required", .arr (jarr [.str "prompt"]))])⟩]⟩]⟩ :=
  ⟨by decide, c9_idempotence _ (by decide)⟩

/- ===== C10 ===== -/

/-- Claim C10: every element of the `contents` list produced by either
Gemini-target converter has nonempty `parts` — the final repair step
removes any turn whose translation yielded zero parts. -/
theorem c10_nonempty_parts :
    (∀ (r : ClaudeRequest) (c : GContent),
      c ∈ (ClaudeToGemini.convert_request r).contents → c.parts ≠ []) ∧
    (∀ (r : OpenAIRequest) (c : GContent),
      c ∈ (OpenAIToGemini.convert_request r).contents → c.parts ≠ []) := by
  constructor
  · intro r c hc
    simp only [ClaudeToGemini.convert_request, fix_request_issues] at hc
    have hp := List.of_mem_filter hc
    intro hnil
    rw [hnil] at hp
    simp at hp
  · intro r c hc
    simp only [OpenAIToGemini.convert_request, fix_request_issues] at hc
    have hp := List.of_mem_filter hc
    intro hnil
    rw [hnil] at hp
    simp at hp

/-- Witness for C10 at concrete requests. -/
theorem c10_witness :
    ((⟨"user", [.text "q"]⟩ : GContent) ∈
        (ClaudeToGemini.convert_request
          ⟨[⟨"user", .str "q", none⟩], []⟩).contents ∧
      (⟨"user", [.text "q"]⟩ : GContent).parts ≠ []) ∧
    ((⟨"user", [.text "q2"]⟩ : GContent) ∈
        (OpenAIToGemini.convert_request
          ⟨[⟨"user", .str "q2", [], "", ""⟩], []⟩).contents ∧
      (⟨"user", [.text "q2"]⟩ : GContent).parts ≠ []) :=
  ⟨⟨by decide,
    c10_nonempty_parts.1 ⟨[⟨"user", .str "q", none⟩], []⟩ ⟨"user", [.text "q"]⟩
      (by decide)⟩,
   ⟨by decide,
    c10_nonempty_parts.2 ⟨[⟨"user", .str "q2", [], "", ""⟩], []⟩ ⟨"user", [.text "q2"]⟩
      (by decide)⟩⟩
